import Mathlib

/-!
Location tracking websocket server: embedding and properties.

A shallow embedding of the Go sources `models.go`, `delivery_tracking.go`,
`main.go`, `client.go` and `database_operations.go`.

Conventions of the embedding

* A finite `float64` value is the rational it stands for (`ℚ`). Every `float64`
  addition, subtraction, multiplication and division rounds its exact result
  with `roundFloat64` (IEEE 754 binary64, round to nearest, ties to even, each
  operation rounded on its own). NaN, infinities and overflow are outside the
  model.
* `time.Time` and `time.Duration` are integers counting nanoseconds.
* `[]byte` and `json.RawMessage` are `String`s.
* Functions of the Go standard library that the code calls (`math.Sin`,
  `math.Cos`, `math.Sqrt`, `math.Atan2`, the `%.0f` verb of `fmt.Sprintf`,
  `json.Marshal`, `json.Unmarshal`) are the fields of a `GoLib` record passed
  to every function that uses them.
* A Go `map` is an association list; the order of the list stands for the
  order in which one `range` loop happens to visit the map.
* A call `dt.hub.sendToDeliveryWatchers(id, bytes)` made by the tracker is
  recorded as a `HubSend` in the list of sends the tracker function returns,
  in program order; the effect of such a call on the hub is `sendToDeliveryWatchers`.
* A Go panic is `Except.error` carrying the panic message.
-/

namespace LocationTracking

/-! ## models.go -/

/-- Nanoseconds since the epoch (`time.Time`). -/
abbrev Time := Int

/-- Byte strings (`[]byte`, `json.RawMessage`). -/
abbrev Bytes := String

def proximityNear : ℚ := 500
def proximityArriving : ℚ := 100
def proximityArrived : ℚ := 50
def defaultSpeed : ℚ := 40

abbrev MessageType := String

def TypeLocationUpdate : MessageType := "location_update"
def TypeStatusChange : MessageType := "status_change"
def TypeETAUpdate : MessageType := "eta_update"
def TypeProximityAlert : MessageType := "proximity_alert"
def TypeDeliveryAssigned : MessageType := "delivery_assigned"
def TypeDeliveryCompleted : MessageType := "delivery_completed"

abbrev DeliveryStatus := String

def StatusPending : DeliveryStatus := "pending"
def StatusAssigned : DeliveryStatus := "assigned"
def StatusPickedUp : DeliveryStatus := "picked_up"
def StatusInTransit : DeliveryStatus := "in_transit"
def StatusNearby : DeliveryStatus := "nearby"
def StatusArriving : DeliveryStatus := "arriving"
def StatusDelivered : DeliveryStatus := "delivered"
def StatusCancelled : DeliveryStatus := "cancelled"

structure Delivery where
  ID : String
  DriverID : String
  CustomerID : String
  PickupLat : ℚ
  PickupLon : ℚ
  DropoffLat : ℚ
  DropoffLon : ℚ
  Status : DeliveryStatus
  EstimatedTime : Time
  CreatedAt : Time
  UpdatedAt : Time
  deriving DecidableEq

structure Location where
  Lat : ℚ
  Lon : ℚ
  Altitude : ℚ
  Speed : ℚ
  Bearing : ℚ
  Accuracy : ℚ
  Timestamp : Time
  deriving DecidableEq

structure DriverLocation where
  DriverID : String
  DeliveryID : String
  Location : Location
  deriving DecidableEq

structure WebSocketMessage where
  MsgType : MessageType
  Timestamp : Time
  Data : Bytes
  deriving DecidableEq

structure ETAUpdate where
  DeliveryID : String
  EstimatedArrival : Time
  DistanceKm : ℚ
  DurationMinutes : Int
  deriving DecidableEq

structure ProximityAlert where
  DeliveryID : String
  DriverID : String
  DistanceM : ℚ
  AlertLevel : String
  Message : String
  deriving DecidableEq

structure StatusChangeEvent where
  DeliveryID : String
  OldStatus : DeliveryStatus
  NewStatus : DeliveryStatus
  Message : String
  deriving DecidableEq

/-- The values `json.Marshal` is applied to in this program. -/
inductive JsonValue where
  | driverLocation (v : DriverLocation)
  | etaUpdate (v : ETAUpdate)
  | proximityAlert (v : ProximityAlert)
  | statusChange (v : StatusChangeEvent)
  | message (v : WebSocketMessage)
  deriving DecidableEq

/-- The Go standard library functions used by the program. -/
structure GoLib where
  Sin : ℚ → ℚ
  Cos : ℚ → ℚ
  Sqrt : ℚ → ℚ
  Atan2 : ℚ → ℚ → ℚ
  Sprintf0 : ℚ → String
  Marshal : JsonValue → Bytes
  UnmarshalMessage : Bytes → Option WebSocketMessage
  UnmarshalLocation : Bytes → Option DriverLocation

/-- The constant `math.Pi` as a `float64`. -/
def mathPi : ℚ := 884279719003555 / 281474976710656

/-- Conversion `int(x)` of a `float64`: truncation toward zero. -/
def floatToInt (x : ℚ) : Int := if 0 ≤ x then ⌊x⌋ else ⌈x⌉

/-- Wrap-around of a signed 64-bit integer. -/
def wrapInt64 (n : Int) : Int := (n + 2 ^ 63) % 2 ^ 64 - 2 ^ 63

/-- The constant `time.Minute`, in nanoseconds. -/
def timeMinute : Int := 60000000000

/-- Rounding of a rational to the nearest integer, a tie going to the even one. -/
def roundHalfEven (t : ℚ) : Int :=
  if t - ⌊t⌋ < 1 / 2 then ⌊t⌋
  else if 1 / 2 < t - ⌊t⌋ then ⌊t⌋ + 1
  else if ⌊t⌋ % 2 = 0 then ⌊t⌋ else ⌊t⌋ + 1

/-- The binary exponent of the last place of the `float64` values around `q`:
52 places below the leading bit, and -1074 in the subnormal range. -/
def ulpExponent (q : ℚ) : Int := max (Int.log 2 |q| - 52) (-1074)

/-- The `float64` nearest to the exact result `q` (ties to even): what a
`float64` operation stores when its exact result is `q`. -/
def roundFloat64 (q : ℚ) : ℚ :=
  if q = 0 then 0 else (roundHalfEven (q / 2 ^ ulpExponent q) : ℚ) * 2 ^ ulpExponent q

/-! ## Go maps as association lists -/

/-- Read `m[k]`; `none` is the missing key. -/
def mapGet {β : Type} (m : List (String × β)) (k : String) : Option β :=
  match m with
  | [] => none
  | (k', v) :: rest => if k' = k then some v else mapGet rest k

/-- Assign `m[k] = v`: overwrite the entry of `k` or add one. -/
def mapSet {β : Type} (m : List (String × β)) (k : String) (v : β) : List (String × β) :=
  match m with
  | [] => [(k, v)]
  | (k', v') :: rest => if k' = k then (k, v) :: rest else (k', v') :: mapSet rest k v

/-- Remove the key: `delete(m, k)`. -/
def mapDelete {β : Type} (m : List (String × β)) (k : String) : List (String × β) :=
  m.filter (fun p => decide (p.1 ≠ k))

/-- Mutate, through the pointer stored under `k`, the object it points to. -/
def mapModify {β : Type} (m : List (String × β)) (k : String) (f : β → β) : List (String × β) :=
  match m with
  | [] => []
  | (k', v) :: rest => if k' = k then (k', f v) :: rest else (k', v) :: mapModify rest k f

/-! ## delivery_tracking.go: the tracker -/

/-- The in-memory state of `DeliveryTracker` (the database handle, the hub
pointer and the mutex are not state of the embedding). -/
structure DeliveryTracker where
  deliveries : List (String × Delivery)
  lastLocations : List (String × DriverLocation)

/-- One call `dt.hub.sendToDeliveryWatchers(deliveryID, message)`. -/
structure HubSend where
  deliveryID : String
  message : Bytes
  deriving DecidableEq

def NewDeliveryTracker : DeliveryTracker :=
  { deliveries := [], lastLocations := [] }

/-- The haversine distance. Every `float64` operation rounds on its own.
`math.Sqrt` of a negative argument is NaN in Go, and NaN is outside the model:
the definition follows the source wherever no NaN arises. -/
def calculateDistance (lib : GoLib) (lat1 lon1 lat2 lon2 : ℚ) : ℚ :=
  let earthRadius : ℚ := 6371
  let dLat := roundFloat64 (roundFloat64 (roundFloat64 (lat2 - lat1) * mathPi) / 180)
  let dLon := roundFloat64 (roundFloat64 (roundFloat64 (lon2 - lon1) * mathPi) / 180)
  let lat1Rad := roundFloat64 (roundFloat64 (lat1 * mathPi) / 180)
  let lat2Rad := roundFloat64 (roundFloat64 (lat2 * mathPi) / 180)
  let sinLat := lib.Sin (roundFloat64 (dLat / 2))
  let sinLon := lib.Sin (roundFloat64 (dLon / 2))
  let a := roundFloat64 (roundFloat64 (sinLat * sinLat) +
    roundFloat64 (roundFloat64 (roundFloat64 (lib.Cos lat1Rad * lib.Cos lat2Rad) * sinLon) *
      sinLon))
  let c := roundFloat64 (2 * lib.Atan2 (lib.Sqrt a) (lib.Sqrt (roundFloat64 (1 - a))))
  roundFloat64 (earthRadius * c)

/-- Lines 38-53 of `calculateETA`: the ETA once the distance is known. -/
def etaFromDistance (now : Time) (deliveryID : String) (distance reportedSpeed : ℚ) :
    ETAUpdate :=
  let speed := if reportedSpeed < 5 then defaultSpeed else reportedSpeed
  let durationHours := roundFloat64 (distance / speed)
  let durationMinutes := floatToInt (roundFloat64 (durationHours * 60))
  let estimatedArrival := now + wrapInt64 (durationMinutes * timeMinute)
  { DeliveryID := deliveryID
    EstimatedArrival := estimatedArrival
    DistanceKm := distance
    DurationMinutes := durationMinutes }

def calculateETA (lib : GoLib) (now : Time) (driverLoc : DriverLocation) (delivery : Delivery) :
    ETAUpdate :=
  let distance := calculateDistance lib driverLoc.Location.Lat driverLoc.Location.Lon
    delivery.DropoffLat delivery.DropoffLon
  etaFromDistance now delivery.ID distance driverLoc.Location.Speed

/-- The four locals `alertLevel`, `message`, `shouldUpdateStatus`, `newStatus`
of `checkProximityAlerts`. -/
structure AlertDecision where
  alertLevel : String
  message : String
  shouldUpdateStatus : Bool
  newStatus : DeliveryStatus
  deriving DecidableEq

/-- The `if / else if` chain of `checkProximityAlerts` (lines 56-82): the values
of its four locals when the chain is left. Locals start at their zero value. -/
def alertDecision (lib : GoLib) (delivery : Delivery) (distanceM : ℚ) : AlertDecision :=
  if distanceM ≤ proximityArrived then
    { alertLevel := "arrived"
      message := "Driver has arrived at your location"
      shouldUpdateStatus := true
      newStatus := StatusDelivered }
  else if distanceM ≤ proximityArriving then
    { alertLevel := "arriving"
      message := "Driver is arriving (" ++ lib.Sprintf0 distanceM ++ "m away)"
      shouldUpdateStatus := decide (delivery.Status ≠ StatusArriving)
      newStatus := if delivery.Status ≠ StatusArriving then StatusArriving else "" }
  else if distanceM ≤ proximityNear then
    { alertLevel := "nearby"
      message := "Driver is nearby (" ++ lib.Sprintf0 distanceM ++ "m away)"
      shouldUpdateStatus :=
        decide (delivery.Status ≠ StatusNearby ∧ delivery.Status ≠ StatusArriving)
      newStatus :=
        if delivery.Status ≠ StatusNearby ∧ delivery.Status ≠ StatusArriving
        then StatusNearby else "" }
  else
    { alertLevel := "", message := "", shouldUpdateStatus := false, newStatus := "" }

def broadcastLocationUpdate (lib : GoLib) (now : Time) (deliveryID : String)
    (driverLoc : DriverLocation) : HubSend :=
  let data := lib.Marshal (.driverLocation driverLoc)
  let message : WebSocketMessage :=
    { MsgType := TypeLocationUpdate, Timestamp := now, Data := data }
  { deliveryID := deliveryID, message := lib.Marshal (.message message) }

def broadcastETAUpdate (lib : GoLib) (now : Time) (deliveryID : String) (eta : ETAUpdate) :
    HubSend :=
  let data := lib.Marshal (.etaUpdate eta)
  let message : WebSocketMessage := { MsgType := TypeETAUpdate, Timestamp := now, Data := data }
  { deliveryID := deliveryID, message := lib.Marshal (.message message) }

def broadcastProximityAlert (lib : GoLib) (now : Time) (deliveryID : String)
    (alert : ProximityAlert) : HubSend :=
  let data := lib.Marshal (.proximityAlert alert)
  let message : WebSocketMessage :=
    { MsgType := TypeProximityAlert, Timestamp := now, Data := data }
  { deliveryID := deliveryID, message := lib.Marshal (.message message) }

def broadcastStatusChange (lib : GoLib) (now : Time) (deliveryID : String)
    (statusChange : StatusChangeEvent) : HubSend :=
  let data := lib.Marshal (.statusChange statusChange)
  let message : WebSocketMessage :=
    { MsgType := TypeStatusChange, Timestamp := now, Data := data }
  { deliveryID := deliveryID, message := lib.Marshal (.message message) }

/-- Writes the status of the delivery stored under `deliveryID`; `dbOk` is the
outcome of the `UPDATE` statement. Returns the tracker and the sends made. -/
def updateDeliveryStatus (lib : GoLib) (now : Time) (dbOk : Bool) (dt : DeliveryTracker)
    (deliveryID : String) (newStatus : DeliveryStatus) : DeliveryTracker × List HubSend :=
  match mapGet dt.deliveries deliveryID with
  | none => (dt, [])
  | some delivery =>
    let oldStatus := delivery.Status
    let deliveries1 := mapModify dt.deliveries deliveryID
      (fun d => { d with Status := newStatus, UpdatedAt := now })
    let dt1 : DeliveryTracker := { dt with deliveries := deliveries1 }
    if !dbOk then (dt1, [])
    else
      let statusChange : StatusChangeEvent :=
        { DeliveryID := deliveryID
          OldStatus := oldStatus
          NewStatus := newStatus
          Message := "Delivery status changed to " ++ newStatus }
      (dt1, [broadcastStatusChange lib now deliveryID statusChange])

def checkProximityAlerts (lib : GoLib) (now : Time) (dbOk : Bool) (dt : DeliveryTracker)
    (delivery : Delivery) (driverLoc : DriverLocation) (distanceKm : ℚ) :
    DeliveryTracker × List HubSend :=
  let distanceM := roundFloat64 (distanceKm * 1000)
  let dec := alertDecision lib delivery distanceM
  if dec.alertLevel ≠ "" then
    let alert : ProximityAlert :=
      { DeliveryID := delivery.ID
        DriverID := driverLoc.DriverID
        DistanceM := distanceM
        AlertLevel := dec.alertLevel
        Message := dec.message }
    let s1 := broadcastProximityAlert lib now delivery.ID alert
    if dec.shouldUpdateStatus then
      let r := updateDeliveryStatus lib now dbOk dt delivery.ID dec.newStatus
      (r.1, s1 :: r.2)
    else (dt, [s1])
  else (dt, [])

def isActiveStatus (s : DeliveryStatus) : Bool :=
  s = StatusAssigned || s = StatusPickedUp || s = StatusInTransit ||
    s = StatusNearby || s = StatusArriving

/-- The `range` loop over `dt.deliveries`: the first entry visited that matches. -/
def getActiveDeliveryForDriver (dt : DeliveryTracker) (driverID : String) : Option Delivery :=
  (dt.deliveries.find? (fun p => p.2.DriverID = driverID && isActiveStatus p.2.Status)).map
    Prod.snd

def processLocationUpdate (lib : GoLib) (now : Time) (dbOk : Bool) (dt : DeliveryTracker)
    (driverLoc : DriverLocation) : DeliveryTracker × List HubSend :=
  let dt1 : DeliveryTracker :=
    { dt with lastLocations := mapSet dt.lastLocations driverLoc.DriverID driverLoc }
  match getActiveDeliveryForDriver dt1 driverLoc.DriverID with
  | none => (dt1, [])
  | some delivery =>
    let eta := calculateETA lib now driverLoc delivery
    let distance := calculateDistance lib driverLoc.Location.Lat driverLoc.Location.Lon
      delivery.DropoffLat delivery.DropoffLon
    let r := checkProximityAlerts lib now dbOk dt1 delivery driverLoc distance
    (r.1, r.2 ++ [broadcastLocationUpdate lib now delivery.ID driverLoc,
      broadcastETAUpdate lib now delivery.ID eta])

/-! ## main.go: the hub -/

/-- A `*Client`. The pointer is the whole record: `addr` tells apart two
sessions opened with the same parameters, and `userID`, `userType` and
`deliveryID` are never written after `serveWs` has built the session. The
channel `send` is mutable and is kept in `Hub.send`. -/
structure Client where
  addr : Nat
  userID : String
  userType : String
  deliveryID : String
  deriving DecidableEq

/-- A buffered channel `chan []byte`. -/
structure Chan where
  buf : List Bytes
  cap : Nat
  closed : Bool
  deriving DecidableEq

/-- The channel built by `make(chan []byte, n)`. -/
def makeChan (n : Nat) : Chan := { buf := [], cap := n, closed := false }

/-- The hub: the session set (keys of `map[*Client]bool`), the three indices,
and the state of every client's `send` channel. The channels `broadcast`,
`register` and `unregister` only carry the calls dispatched by `run`. -/
structure Hub where
  clients : List Client
  drivers : List (String × Client)
  customers : List (String × List Client)
  deliveries : List (String × List Client)
  send : Client → Chan

def newHub : Hub :=
  { clients := [], drivers := [], customers := [], deliveries := [],
    send := fun _ => makeChan 256 }

/-- The assignment `h.clients[client] = true`. -/
def setInsert (s : List Client) (client : Client) : List Client :=
  if client ∈ s then s else s ++ [client]

/-- The call `delete(h.clients, client)`. -/
def setDelete (s : List Client) (client : Client) : List Client :=
  s.filter (fun c => decide (c ≠ client))

/-- The channel after one more message is buffered. -/
def chanPush (ch : Chan) (message : Bytes) : Chan := { ch with buf := ch.buf ++ [message] }

/-- Store the new state of `client.send`. -/
def setSend (h : Hub) (client : Client) (ch : Chan) : Hub :=
  { h with send := Function.update h.send client ch }

/-- The call `close(client.send)`; closing a closed channel panics. -/
def closeSend (h : Hub) (client : Client) : Except String Hub :=
  if (h.send client).closed then .error "close of closed channel"
  else .ok (setSend h client { h.send client with closed := true })

def registerClient (h : Hub) (client : Client) : Hub :=
  let h1 : Hub := { h with clients := setInsert h.clients client }
  if client.userType = "driver" then
    { h1 with drivers := mapSet h1.drivers client.userID client }
  else if client.userType = "customer" then
    let sessions := (mapGet h1.customers client.userID).getD [] ++ [client]
    let h2 : Hub := { h1 with customers := mapSet h1.customers client.userID sessions }
    if client.deliveryID ≠ "" then
      let watchers := (mapGet h2.deliveries client.deliveryID).getD [] ++ [client]
      { h2 with deliveries := mapSet h2.deliveries client.deliveryID watchers }
    else h2
  else h1

/-- The loop `for i, c := range clients { if c == client { ... ; break } }`:
the first occurrence of `client` is cut out of the slice stored under `key`. -/
def removeFromIndex (index : List (String × List Client)) (key : String) (client : Client) :
    List (String × List Client) :=
  match mapGet index key with
  | none => index
  | some clients => if client ∈ clients then mapSet index key (clients.erase client) else index

def removeCustomerClient (h : Hub) (client : Client) : Hub :=
  let h1 : Hub := { h with customers := removeFromIndex h.customers client.userID client }
  if client.deliveryID ≠ "" then
    { h1 with deliveries := removeFromIndex h1.deliveries client.deliveryID client }
  else h1

def unregisterClient (h : Hub) (client : Client) : Except String Hub :=
  if client ∈ h.clients then
    let h1 : Hub := { h with clients := setDelete h.clients client }
    match closeSend h1 client with
    | .error e => .error e
    | .ok h2 =>
      if client.userType = "driver" then
        .ok { h2 with drivers := mapDelete h2.drivers client.userID }
      else if client.userType = "customer" then
        .ok (removeCustomerClient h2 client)
      else .ok h2
  else .ok h

/-- One turn of the loop of `broadcastToAll`:
`select { case client.send <- message: default: close(client.send); delete(h.clients, client) }`.
A send on a closed channel panics; a send on a full buffer takes `default`. -/
def broadcastStep (message : Bytes) (h : Hub) (client : Client) : Except String Hub :=
  if (h.send client).closed then .error "send on closed channel"
  else if (h.send client).buf.length < (h.send client).cap then
    .ok (setSend h client (chanPush (h.send client) message))
  else
    match closeSend h client with
    | .error e => .error e
    | .ok h1 => .ok { h1 with clients := setDelete h1.clients client }

/-- The loop `for client := range ...` of `broadcastToAll` over the keys still to visit. -/
def broadcastLoop (message : Bytes) : List Client → Hub → Except String Hub
  | [], h => .ok h
  | client :: rest, h =>
    match broadcastStep message h client with
    | .error e => .error e
    | .ok h1 => broadcastLoop message rest h1

def broadcastToAll (h : Hub) (message : Bytes) : Except String Hub :=
  broadcastLoop message h.clients h

/-- One turn of the loop of `sendToDeliveryWatchers`:
`select { case client.send <- message: default: log.Printf(...) }`. -/
def watcherStep (message : Bytes) (h : Hub) (client : Client) : Except String Hub :=
  if (h.send client).closed then .error "send on closed channel"
  else if (h.send client).buf.length < (h.send client).cap then
    .ok (setSend h client (chanPush (h.send client) message))
  else .ok h

/-- The loop `for _, client := range clients` of `sendToDeliveryWatchers`. -/
def watcherLoop (message : Bytes) : List Client → Hub → Except String Hub
  | [], h => .ok h
  | client :: rest, h =>
    match watcherStep message h client with
    | .error e => .error e
    | .ok h1 => watcherLoop message rest h1

def sendToDeliveryWatchers (h : Hub) (deliveryID : String) (message : Bytes) :
    Except String Hub :=
  match mapGet h.deliveries deliveryID with
  | none => .ok h
  | some clients => watcherLoop message clients h

/-- The registration path of `serveWs`: a connection without `user_id` or
`user_type` is closed unregistered; otherwise a new client is built with
`send: make(chan []byte, 256)` and handed to `registerClient` through
`hub.register`. `addr` is the address the allocator gives the new client. -/
def serveWs (h : Hub) (addr : Nat) (userID userType deliveryID : String) : Hub :=
  if userID = "" ∨ userType = "" then h
  else
    let client : Client :=
      { addr := addr, userID := userID, userType := userType, deliveryID := deliveryID }
    registerClient (setSend h client (makeChan 256)) client

/-! ## client.go and database_operations.go: inbound frames of a driver -/

/-- The placeholder `App.processLocation`: its body is `panic("unimplemented")`. -/
def processLocation (_location : DriverLocation) : Except String Unit :=
  .error "unimplemented"

def handleDriverMessage (lib : GoLib) (now : Time) (dbOk : Bool) (dt : DeliveryTracker)
    (message : Bytes) : Except String (DeliveryTracker × List HubSend) :=
  match lib.UnmarshalMessage message with
  | none => .ok (dt, [])
  | some wsMsg =>
    if wsMsg.MsgType = TypeLocationUpdate then
      match lib.UnmarshalLocation wsMsg.Data with
      | none => .ok (dt, [])
      | some driverLoc =>
        match processLocation driverLoc with
        | .error e => .error e
        | .ok _ => .ok (processLocationUpdate lib now dbOk dt driverLoc)
    else .ok (dt, [])

/-! ## Vocabulary of the properties -/

/-- Position of a status in the order
`assigned / picked_up / in_transit < nearby < arriving < delivered`. -/
def statusRank (s : DeliveryStatus) : Nat :=
  if s = StatusDelivered then 3
  else if s = StatusArriving then 2
  else if s = StatusNearby then 1
  else 0

/-- Status `s2` is `s1`, or `s1` is an active status and `s2` comes strictly later. -/
def StatusForward (s1 s2 : DeliveryStatus) : Prop :=
  s2 = s1 ∨ (isActiveStatus s1 = true ∧ statusRank s1 < statusRank s2)

/-- The table is a map (no key twice) that stores every delivery under its own
id, as `loadActiveDeliveries` fills it (`dt.deliveries[d.ID] = &d`). -/
def WellKeyed (dt : DeliveryTracker) : Prop :=
  (dt.deliveries.map Prod.fst).Nodup ∧ ∀ p ∈ dt.deliveries, p.1 = p.2.ID

/-- The proximity alert that `checkProximityAlerts` hands to the hub. -/
def alertSend (lib : GoLib) (now : Time) (delivery : Delivery) (driverLoc : DriverLocation)
    (distanceM : ℚ) (level message : String) : HubSend :=
  broadcastProximityAlert lib now delivery.ID
    { DeliveryID := delivery.ID
      DriverID := driverLoc.DriverID
      DistanceM := distanceM
      AlertLevel := level
      Message := message }

/-- Tracker states linked by a sequence of location reports. Between two
reports the table may be visited in another order (`ds` is a permutation of the
entries), since Go fixes no iteration order for a map. -/
inductive Reports (lib : GoLib) : DeliveryTracker → DeliveryTracker → Prop where
  | refl (dt : DeliveryTracker) : Reports lib dt dt
  | step (dt dt1 : DeliveryTracker) (ds : List (String × Delivery)) (now : Time) (dbOk : Bool)
      (driverLoc : DriverLocation) :
      Reports lib dt dt1 → dt1.deliveries.Perm ds →
      Reports lib dt
        (processLocationUpdate lib now dbOk { dt1 with deliveries := ds } driverLoc).1

/-- Some field of the hub still points to the client. A client that `serveWs`
has just allocated is pointed to by nothing. -/
def refers (h : Hub) (c : Client) : Prop :=
  c ∈ h.clients ∨ (∃ k, mapGet h.drivers k = some c) ∨
    (∃ k cl, mapGet h.customers k = some cl ∧ c ∈ cl) ∨
    (∃ k cl, mapGet h.deliveries k = some cl ∧ c ∈ cl)

/-- Hub states reached from the empty hub by registrations of new sessions
(through `serveWs`) and by `unregisterClient` calls. -/
inductive RegReachable : Hub → Prop where
  | empty : RegReachable newHub
  | register (h : Hub) (addr : Nat) (userID userType deliveryID : String) :
      RegReachable h → ¬ refers h ⟨addr, userID, userType, deliveryID⟩ →
      RegReachable (serveWs h addr userID userType deliveryID)
  | unregister (h h2 : Hub) (client : Client) :
      RegReachable h → unregisterClient h client = .ok h2 → RegReachable h2

/-- Hub states reached from the empty hub by registrations of new sessions and
by calls of `unregisterClient`, `broadcastToAll` and `sendToDeliveryWatchers`. -/
inductive Reachable : Hub → Prop where
  | empty : Reachable newHub
  | register (h : Hub) (addr : Nat) (userID userType deliveryID : String) :
      Reachable h → ¬ refers h ⟨addr, userID, userType, deliveryID⟩ →
      Reachable (serveWs h addr userID userType deliveryID)
  | unregister (h h2 : Hub) (client : Client) :
      Reachable h → unregisterClient h client = .ok h2 → Reachable h2
  | broadcast (h h2 : Hub) (message : Bytes) :
      Reachable h → broadcastToAll h message = .ok h2 → Reachable h2
  | send (h h2 : Hub) (deliveryID : String) (message : Bytes) :
      Reachable h → sendToDeliveryWatchers h deliveryID message = .ok h2 → Reachable h2

/-- Every registered session has an open queue, and every watcher list holds,
without repetition, registered customer sessions that asked for that delivery. -/
def WatchersLive (h : Hub) : Prop :=
  (∀ c ∈ h.clients, (h.send c).closed = false) ∧
  ∀ D cl, mapGet h.deliveries D = some cl →
    cl.Nodup ∧ ∀ c ∈ cl, c ∈ h.clients ∧ c.userType = "customer" ∧ c.deliveryID = D ∧ D ≠ ""

/-- The registry part of two hub states is the same. -/
def SameRegistry (h h2 : Hub) : Prop :=
  h2.clients = h.clients ∧ h2.drivers = h.drivers ∧ h2.customers = h.customers ∧
    h2.deliveries = h.deliveries

/-- The buffer of the client's queue has room for one more message. -/
def hasRoom (h : Hub) (c : Client) : Prop := (h.send c).buf.length < (h.send c).cap

instance hasRoomDecidable (h : Hub) (c : Client) : Decidable (hasRoom h c) :=
  inferInstanceAs (Decidable ((h.send c).buf.length < (h.send c).cap))

/-- The effective speed in the words of the specification: the reported speed
when it is at least 5 km/h, else 40 km/h. -/
def effectiveSpeed (v : ℚ) : ℚ := if 5 ≤ v then v else 40

/-! ## Sample data

Concrete inputs at which the theorems below are instantiated. -/

/-- A stand-in for the Go library: low-order rational approximations of the
math functions and a toy JSON codec. -/
def sampleLib : GoLib :=
  { Sin := fun x => x - x ^ 3 / 6
    Cos := fun x => 1 - x ^ 2 / 2
    Sqrt := fun x => if x ≤ 0 then 0 else (x + 1) / 2
    Atan2 := fun y x => if y ≤ 0 ∨ x < 0 then 0 else 11 / 7 * (y / (x + y))
    Sprintf0 := fun x => toString ⌊x + 1 / 2⌋
    Marshal := fun v =>
      match v with
      | .driverLocation l => l.DriverID
      | .etaUpdate e => e.DeliveryID
      | .proximityAlert a => a.AlertLevel
      | .statusChange c => c.NewStatus
      | .message m => m.MsgType ++ " " ++ m.Data
    UnmarshalMessage := fun b =>
      if b = "" then none else some { MsgType := "location_update", Timestamp := 0, Data := b }
    UnmarshalLocation := fun b =>
      if b = "" then none
      else some { DriverID := b, DeliveryID := "", Location := ⟨0, 0, 0, 0, 0, 0, 0⟩ } }

def sampleDelivery : Delivery :=
  { ID := "D1", DriverID := "drv1", CustomerID := "cust1"
    PickupLat := 41, PickupLon := -74
    DropoffLat := 40 + 1 / 2000, DropoffLon := -74
    Status := "in_transit", EstimatedTime := 0, CreatedAt := 0, UpdatedAt := 0 }

def sampleDriverLoc : DriverLocation :=
  { DriverID := "drv1", DeliveryID := "D1"
    Location := { Lat := 40, Lon := -74, Altitude := 0, Speed := 20, Bearing := 0,
                  Accuracy := 5, Timestamp := 0 } }

def sampleTracker : DeliveryTracker :=
  { deliveries := [("D1", sampleDelivery)], lastLocations := [] }

def sampleCustomer : Client :=
  { addr := 1, userID := "cust1", userType := "customer", deliveryID := "D1" }

def sampleDriver : Client :=
  { addr := 2, userID := "drv1", userType := "driver", deliveryID := "" }

/-- The hub after a customer watching `D1` and then a driver have connected. -/
def sampleHub : Hub :=
  serveWs (serveWs newHub 1 "cust1" "customer" "D1") 2 "drv1" "driver" ""

/-- The tracker sends `n` messages to the watchers of a delivery while no
message is taken off any queue (stalled consumers). -/
def sendMany : Nat → Hub → String → Bytes → Except String Hub
  | 0, h, _, _ => .ok h
  | n + 1, h, deliveryID, message =>
    match sendToDeliveryWatchers h deliveryID message with
    | .error e => .error e
    | .ok h1 => sendMany n h1 deliveryID message

/-- The hub broadcasts `n` messages while no message is taken off any queue. -/
def broadcastMany : Nat → Hub → Bytes → Except String Hub
  | 0, h, _ => .ok h
  | n + 1, h, message =>
    match broadcastToAll h message with
    | .error e => .error e
    | .ok h1 => broadcastMany n h1 message

/-- The sample hub with 256 messages pending on the customer's queue. -/
def fullHub : Hub :=
  setSend sampleHub sampleCustomer { buf := List.replicate 256 "m", cap := 256, closed := false }

/-- The hub after one customer watching `D1` has connected. -/
def customerHub : Hub := serveWs newHub 1 "cust1" "customer" "D1"

/-! ## Lemmas on maps -/

theorem mapGet_mapModify_same {β : Type} (m : List (String × β)) (k : String) (f : β → β) :
    mapGet (mapModify m k f) k = (mapGet m k).map f := by
  induction m with
  | nil => rfl
  | cons p rest ih =>
    obtain ⟨k', v⟩ := p
    by_cases h : k' = k
    · simp [mapModify, mapGet, h]
    · simp [mapModify, mapGet, h, ih]

theorem mapGet_mapModify_other {β : Type} (m : List (String × β)) (k k2 : String) (f : β → β)
    (hne : k2 ≠ k) : mapGet (mapModify m k f) k2 = mapGet m k2 := by
  induction m with
  | nil => rfl
  | cons p rest ih =>
    obtain ⟨k', v⟩ := p
    by_cases h : k' = k
    · subst h
      have h2 : ¬ k' = k2 := fun e => hne e.symm
      simp [mapModify, mapGet, h2]
    · by_cases h3 : k' = k2
      · subst h3
        simp [mapModify, mapGet, h]
      · simp [mapModify, mapGet, h, h3, ih]

theorem map_fst_mapModify {β : Type} (m : List (String × β)) (k : String) (f : β → β) :
    (mapModify m k f).map Prod.fst = m.map Prod.fst := by
  induction m with
  | nil => rfl
  | cons p rest ih =>
    obtain ⟨k', v⟩ := p
    by_cases h : k' = k
    · simp [mapModify, h]
    · simp [mapModify, h, ih]

theorem mem_mapModify {β : Type} (m : List (String × β)) (k : String) (f : β → β)
    (p : String × β) (hp : p ∈ mapModify m k f) :
    p ∈ m ∨ ∃ v, (k, v) ∈ m ∧ p = (k, f v) := by
  induction m with
  | nil => simp [mapModify] at hp
  | cons q rest ih =>
    obtain ⟨k', v⟩ := q
    by_cases h : k' = k
    · subst h
      simp only [mapModify, if_true, List.mem_cons] at hp
      rcases hp with hp | hp
      · exact Or.inr ⟨v, by simp, hp⟩
      · exact Or.inl (by simp [hp])
    · simp only [mapModify, h, if_false, List.mem_cons] at hp
      rcases hp with hp | hp
      · exact Or.inl (by simp [hp])
      · rcases ih hp with h1 | ⟨w, hw, e⟩
        · exact Or.inl (by simp [h1])
        · exact Or.inr ⟨w, by simp [hw], e⟩

theorem mapGet_of_mem {β : Type} (m : List (String × β)) (k : String) (v : β)
    (hnd : (m.map Prod.fst).Nodup) (hmem : (k, v) ∈ m) : mapGet m k = some v := by
  induction m with
  | nil => simp at hmem
  | cons q rest ih =>
    obtain ⟨k', v'⟩ := q
    simp only [List.map_cons, List.nodup_cons] at hnd
    simp only [List.mem_cons, Prod.mk.injEq] at hmem
    rcases hmem with ⟨e1, e2⟩ | hmem
    · simp [mapGet, e1, e2]
    · have hk : k' ≠ k := by
        intro e
        apply hnd.1
        rw [e]
        exact List.mem_map_of_mem Prod.fst hmem
      simp [mapGet, hk, ih hnd.2 hmem]

theorem mem_of_mapGet {β : Type} (m : List (String × β)) (k : String) (v : β)
    (h : mapGet m k = some v) : (k, v) ∈ m := by
  induction m with
  | nil => simp [mapGet] at h
  | cons q rest ih =>
    obtain ⟨k', v'⟩ := q
    by_cases hk : k' = k
    · simp [mapGet, hk] at h
      simp [hk, h]
    · simp [mapGet, hk] at h
      simp [ih h]

theorem mapGet_perm {β : Type} (m1 m2 : List (String × β)) (k : String) (v : β)
    (hnd : (m1.map Prod.fst).Nodup) (hp : m1.Perm m2) (h : mapGet m1 k = some v) :
    mapGet m2 k = some v := by
  have hnd2 : (m2.map Prod.fst).Nodup := (hp.map Prod.fst).nodup_iff.mp hnd
  exact mapGet_of_mem m2 k v hnd2 (hp.subset (mem_of_mapGet m1 k v h))

/-! ## Rounding to float64 -/

theorem roundHalfEven_eq (t : ℚ) (n : Int) (h1 : (n : ℚ) - 1 / 2 < t) (h2 : t < n + 1 / 2) :
    roundHalfEven t = n := by
  unfold roundHalfEven
  have hf1 := Int.floor_le t
  have hf2 := Int.lt_floor_add_one t
  by_cases hlt : t < n
  · have hfl : ⌊t⌋ = n - 1 := by
      rw [Int.floor_eq_iff]
      push_cast
      constructor <;> linarith
    rw [hfl]
    push_cast
    have h3 : ¬ (t - ((n : ℚ) - 1) < 1 / 2) := by linarith
    have h4 : 1 / 2 < t - ((n : ℚ) - 1) := by linarith
    rw [if_neg h3, if_pos h4]
    ring
  · have hfl : ⌊t⌋ = n := by
      rw [Int.floor_eq_iff]
      constructor <;> linarith
    rw [hfl]
    have h3 : t - (n : ℚ) < 1 / 2 := by linarith
    rw [if_pos h3]

theorem roundHalfEven_le (t : ℚ) : (roundHalfEven t : ℚ) ≤ t + 1 / 2 := by
  unfold roundHalfEven
  have hf1 := Int.floor_le t
  have hf2 := Int.lt_floor_add_one t
  split_ifs with h1 h2 h3
  · linarith
  · push_cast; linarith
  · linarith
  · have : t - ⌊t⌋ = 1 / 2 := le_antisymm (not_lt.mp h2) (not_lt.mp h1)
    push_cast; linarith

theorem roundHalfEven_nonneg (t : ℚ) (h : 0 ≤ t) : 0 ≤ roundHalfEven t := by
  unfold roundHalfEven
  have hf : 0 ≤ ⌊t⌋ := Int.floor_nonneg.mpr h
  split_ifs <;> omega

theorem roundFloat64_nonneg (q : ℚ) (h : 0 ≤ q) : 0 ≤ roundFloat64 q := by
  unfold roundFloat64
  split_ifs with h0
  · exact le_refl 0
  · have hp : (0 : ℚ) < 2 ^ ulpExponent q := zpow_pos (by norm_num) _
    have ht : 0 ≤ q / 2 ^ ulpExponent q := div_nonneg h hp.le
    have := roundHalfEven_nonneg _ ht
    exact mul_nonneg (by exact_mod_cast this) hp.le

theorem ulp_le (q : ℚ) (h : 0 < q) : (2 : ℚ) ^ ulpExponent q ≤ max q 1 := by
  unfold ulpExponent
  rcases max_cases (Int.log 2 |q| - 52) (-1074) with ⟨e, _⟩ | ⟨e, _⟩
  · rw [e]
    have h1 : (2 : ℚ) ^ (Int.log 2 |q| - 52) ≤ 2 ^ Int.log 2 |q| :=
      zpow_le_zpow_right₀ (by norm_num) (by omega)
    have h2 : ((2 : ℕ) : ℚ) ^ Int.log 2 |q| ≤ |q| :=
      Int.zpow_log_le_self (by norm_num) (abs_pos.mpr h.ne')
    push_cast at h2
    have h3 : |q| ≤ q := le_of_eq (abs_of_pos h)
    exact le_trans (le_trans h1 (le_trans h2 h3)) (le_max_left _ _)
  · rw [e]
    have h1 : (2 : ℚ) ^ (-1074 : ℤ) ≤ 2 ^ (0 : ℤ) := zpow_le_zpow_right₀ (by norm_num) (by omega)
    rw [zpow_zero] at h1
    exact le_trans h1 (le_max_right _ _)

theorem roundFloat64_le (q : ℚ) (h : 0 ≤ q) : roundFloat64 q ≤ 2 * q + 1 := by
  unfold roundFloat64
  split_ifs with h0
  · linarith
  · have hq : 0 < q := lt_of_le_of_ne h (Ne.symm h0)
    have hp : (0 : ℚ) < 2 ^ ulpExponent q := zpow_pos (by norm_num) _
    have hu := ulp_le q hq
    have hr := roundHalfEven_le (q / 2 ^ ulpExponent q)
    have h1 : (roundHalfEven (q / 2 ^ ulpExponent q) : ℚ) * 2 ^ ulpExponent q ≤
        (q / 2 ^ ulpExponent q + 1 / 2) * 2 ^ ulpExponent q :=
      mul_le_mul_of_nonneg_right hr hp.le
    have h2 : (q / 2 ^ ulpExponent q + 1 / 2) * 2 ^ ulpExponent q = q + 2 ^ ulpExponent q / 2 := by
      field_simp
      ring
    rw [h2] at h1
    have h3 : max q 1 ≤ q + 1 := max_le (by linarith) (by linarith)
    linarith

/-- Evaluation of the rounding of a positive normal value. -/
theorem roundFloat64_eval (q : ℚ) (e n : Int) (hq : 0 < q) (he1 : (2 : ℚ) ^ e ≤ q)
    (he2 : q < 2 ^ (e + 1)) (hp : -1074 ≤ e - 52)
    (hn1 : (n : ℚ) - 1 / 2 < q / 2 ^ (e - 52)) (hn2 : q / 2 ^ (e - 52) < n + 1 / 2) :
    roundFloat64 q = n * 2 ^ (e - 52) := by
  have hlog : Int.log 2 |q| = e := by
    rw [abs_of_pos hq]
    apply le_antisymm
    · have := (Int.lt_zpow_iff_log_lt (R := ℚ) (b := 2) (by norm_num) hq (x := e + 1)).mp
        (by push_cast; exact he2)
      omega
    · exact (Int.zpow_le_iff_le_log (R := ℚ) (b := 2) (by norm_num) hq).mp (by push_cast; exact he1)
  have hu : ulpExponent q = e - 52 := by
    unfold ulpExponent
    rw [hlog]
    exact max_eq_left hp
  unfold roundFloat64
  rw [if_neg hq.ne', hu, roundHalfEven_eq _ n hn1 hn2]

theorem roundHalfEven_ge (t : ℚ) : t - 1 / 2 ≤ (roundHalfEven t : ℚ) := by
  unfold roundHalfEven
  have hf1 := Int.floor_le t
  have hf2 := Int.lt_floor_add_one t
  split_ifs with h1 h2 h3
  · linarith
  · push_cast; linarith
  · have : t - ⌊t⌋ = 1 / 2 := le_antisymm (not_lt.mp h2) (not_lt.mp h1)
    linarith
  · push_cast; linarith

theorem roundHalfEven_mono (t u : ℚ) (h : t ≤ u) : roundHalfEven t ≤ roundHalfEven u := by
  by_contra hc
  rw [not_le] at hc
  have h1 : (roundHalfEven u : ℚ) + 1 ≤ roundHalfEven t := by exact_mod_cast hc
  have h2 := roundHalfEven_le t
  have h3 := roundHalfEven_ge u
  have htu : t = u := le_antisymm h (by linarith)
  rw [htu] at hc
  exact lt_irrefl _ hc

theorem roundHalfEven_le_int (t : ℚ) (n : Int) (h : t ≤ n) : roundHalfEven t ≤ n := by
  have h2 := roundHalfEven_le t
  have h3 : (roundHalfEven t : ℚ) < (n : ℚ) + 1 := by linarith
  have h4 : roundHalfEven t < n + 1 := by exact_mod_cast h3
  omega

theorem roundHalfEven_ge_int (t : ℚ) (n : Int) (h : (n : ℚ) ≤ t) : n ≤ roundHalfEven t := by
  have h2 := roundHalfEven_ge t
  have h3 : (n : ℚ) - 1 < roundHalfEven t := by linarith
  have h4 : n - 1 < roundHalfEven t := by exact_mod_cast h3
  omega

theorem roundFloat64_pos_eq (q : ℚ) (h : 0 < q) :
    roundFloat64 q = (roundHalfEven (q / 2 ^ ulpExponent q) : ℚ) * 2 ^ ulpExponent q := by
  unfold roundFloat64
  rw [if_neg h.ne']

theorem two_zpow_log_le (q : ℚ) (h : 0 < q) : (2 : ℚ) ^ Int.log 2 |q| ≤ q := by
  have h2 : ((2 : ℕ) : ℚ) ^ Int.log 2 |q| ≤ |q| :=
    Int.zpow_log_le_self (by norm_num) (abs_pos.mpr h.ne')
  push_cast at h2
  exact le_trans h2 (le_of_eq (abs_of_pos h))

theorem lt_two_zpow_log (q : ℚ) : q < (2 : ℚ) ^ (Int.log 2 |q| + 1) := by
  have h2 : |q| < ((2 : ℕ) : ℚ) ^ (Int.log 2 |q| + 1) :=
    Int.lt_zpow_succ_log_self (by norm_num) |q|
  push_cast at h2
  exact lt_of_le_of_lt (le_abs_self q) h2

/-- On positive values the rounding is monotone. -/
theorem roundFloat64_mono_pos (a b : ℚ) (ha : 0 < a) (hab : a ≤ b) :
    roundFloat64 a ≤ roundFloat64 b := by
  have hb : 0 < b := lt_of_lt_of_le ha hab
  rw [roundFloat64_pos_eq a ha, roundFloat64_pos_eq b hb]
  have hlog : Int.log 2 |a| ≤ Int.log 2 |b| := by
    apply Int.log_mono_right (abs_pos.mpr ha.ne')
    rw [abs_of_pos ha, abs_of_pos hb]
    exact hab
  have hpa : (0 : ℚ) < 2 ^ ulpExponent a := zpow_pos (by norm_num) _
  have hpb : (0 : ℚ) < 2 ^ ulpExponent b := zpow_pos (by norm_num) _
  have hple : ulpExponent a ≤ ulpExponent b := by
    unfold ulpExponent
    exact max_le_max (by omega) (le_refl _)
  rcases eq_or_lt_of_le hple with heq | hlt
  · rw [← heq]
    apply mul_le_mul_of_nonneg_right _ hpa.le
    have := roundHalfEven_mono (a / 2 ^ ulpExponent a) (b / 2 ^ ulpExponent a)
      (div_le_div_of_nonneg_right hab hpa.le)
    exact_mod_cast this
  · -- a rounds to at most 2^(pa+53), b rounds to at least 2^(pb+52)
    have hA : (roundHalfEven (a / 2 ^ ulpExponent a) : ℚ) * 2 ^ ulpExponent a ≤
        2 ^ (ulpExponent a + 53) := by
      have h1 : a < (2 : ℚ) ^ (ulpExponent a + 53) := by
        refine lt_of_lt_of_le (lt_two_zpow_log a) ?_
        apply zpow_le_zpow_right₀ (by norm_num)
        unfold ulpExponent
        have := le_max_left (Int.log 2 |a| - 52) (-1074)
        omega
      have h2 : a / 2 ^ ulpExponent a ≤ ((2 ^ 53 : Int) : ℚ) := by
        rw [div_le_iff₀ hpa]
        push_cast
        rw [zpow_add₀ (by norm_num : (2 : ℚ) ≠ 0)] at h1
        have e : (2 : ℚ) ^ (53 : ℤ) = 2 ^ 53 := by norm_num
        rw [e] at h1
        linarith
      have h3 := roundHalfEven_le_int _ _ h2
      have h4 : (roundHalfEven (a / 2 ^ ulpExponent a) : ℚ) ≤ ((2 ^ 53 : Int) : ℚ) := by
        exact_mod_cast h3
      rw [zpow_add₀ (by norm_num : (2 : ℚ) ≠ 0)]
      have e : (2 : ℚ) ^ (53 : ℤ) = 2 ^ 53 := by norm_num
      rw [e, mul_comm ((2 : ℚ) ^ ulpExponent a)]
      push_cast at h4
      exact mul_le_mul_of_nonneg_right h4 hpa.le
    have hbexp : ulpExponent b = Int.log 2 |b| - 52 := by
      have hgt : -1074 < ulpExponent b :=
        lt_of_le_of_lt (by unfold ulpExponent; exact le_max_right _ _) hlt
      unfold ulpExponent at hgt ⊢
      rcases max_cases (Int.log 2 |b| - 52) (-1074) with ⟨e, _⟩ | ⟨e, _⟩
      · exact e
      · rw [e] at hgt
        exact absurd hgt (lt_irrefl _)
    have hB : (2 : ℚ) ^ (ulpExponent b + 52) ≤
        (roundHalfEven (b / 2 ^ ulpExponent b) : ℚ) * 2 ^ ulpExponent b := by
      have h1 : (2 : ℚ) ^ (ulpExponent b + 52) ≤ b := by
        have := two_zpow_log_le b hb
        rw [hbexp]
        simpa using this
      have h2 : ((2 ^ 52 : Int) : ℚ) ≤ b / 2 ^ ulpExponent b := by
        rw [le_div_iff₀ hpb]
        push_cast
        rw [zpow_add₀ (by norm_num : (2 : ℚ) ≠ 0)] at h1
        have e : (2 : ℚ) ^ (52 : ℤ) = 2 ^ 52 := by norm_num
        rw [e] at h1
        linarith
      have h3 := roundHalfEven_ge_int _ _ h2
      have h4 : ((2 ^ 52 : Int) : ℚ) ≤ (roundHalfEven (b / 2 ^ ulpExponent b) : ℚ) := by
        exact_mod_cast h3
      rw [zpow_add₀ (by norm_num : (2 : ℚ) ≠ 0)]
      have e : (2 : ℚ) ^ (52 : ℤ) = 2 ^ 52 := by norm_num
      rw [e, mul_comm ((2 : ℚ) ^ ulpExponent b)]
      push_cast at h4
      exact mul_le_mul_of_nonneg_right h4 hpb.le
    have hmid : (2 : ℚ) ^ (ulpExponent a + 53) ≤ 2 ^ (ulpExponent b + 52) :=
      zpow_le_zpow_right₀ (by norm_num) (by omega)
    exact le_trans hA (le_trans hmid hB)

theorem roundHalfEven_nonpos (t : ℚ) (h : t ≤ 0) : roundHalfEven t ≤ 0 :=
  roundHalfEven_le_int t 0 (by simpa using h)

theorem roundFloat64_nonpos (q : ℚ) (h : q ≤ 0) : roundFloat64 q ≤ 0 := by
  unfold roundFloat64
  split_ifs with h0
  · exact le_refl 0
  · have hp : (0 : ℚ) < 2 ^ ulpExponent q := zpow_pos (by norm_num) _
    have ht : q / 2 ^ ulpExponent q ≤ 0 := div_nonpos_of_nonpos_of_nonneg h hp.le
    have := roundHalfEven_nonpos _ ht
    exact mul_nonpos_of_nonpos_of_nonneg (by exact_mod_cast this) hp.le

/-- A value that is at most a non-negative `float64` rounds to at most that `float64`. -/
theorem roundFloat64_le_of_le (q b : ℚ) (hb : 0 ≤ b) (hfix : roundFloat64 b = b) (h : q ≤ b) :
    roundFloat64 q ≤ b := by
  rcases le_or_lt q 0 with hq | hq
  · exact le_trans (roundFloat64_nonpos q hq) hb
  · rw [← hfix]
    exact roundFloat64_mono_pos q b hq h

theorem roundFloat64_fifty : roundFloat64 50 = 50 := by
  rw [roundFloat64_eval 50 5 7036874417766400 (by norm_num) (by norm_num) (by norm_num)
    (by norm_num) (by norm_num) (by norm_num)]
  norm_num


theorem roundFloat64_hundred : roundFloat64 100 = 100 := by
  rw [roundFloat64_eval 100 6 7036874417766400 (by norm_num) (by norm_num) (by norm_num)
    (by norm_num) (by norm_num) (by norm_num)]
  norm_num

/-- An exact product of at most 50 is stored as a value of at most 50. -/
theorem roundFloat64_le_fifty (q : ℚ) (h : q ≤ 50) : roundFloat64 q ≤ 50 :=
  roundFloat64_le_of_le q 50 (by norm_num) roundFloat64_fifty h

/-- An exact product above 100 is stored as a value of at least 100. -/
theorem roundFloat64_ge_hundred (q : ℚ) (h : 100 < q) : 100 ≤ roundFloat64 q := by
  have := roundFloat64_mono_pos 100 q (by norm_num) h.le
  rw [roundFloat64_hundred] at this
  exact this

theorem roundFloat64_zero : roundFloat64 0 = 0 := by
  unfold roundFloat64
  rw [if_pos rfl]

/-- The product `float64(0.05) * 1000` is stored as exactly 50. -/
theorem roundFloat64_fifty_metres :
    roundFloat64 (3602879701896397 / 72057594037927936 * 1000) = 50 := by
  rw [roundFloat64_eval _ 5 7036874417766400 (by norm_num) (by norm_num) (by norm_num)
    (by norm_num) (by norm_num) (by norm_num)]
  norm_num

/-- The product `float64(0.1) * 1000` is stored as exactly 100. -/
theorem roundFloat64_hundred_metres :
    roundFloat64 (3602879701896397 / 36028797018963968 * 1000) = 100 := by
  rw [roundFloat64_eval _ 6 7036874417766400 (by norm_num) (by norm_num) (by norm_num)
    (by norm_num) (by norm_num) (by norm_num)]
  norm_num

/-- The product `float64(0.056) * 1000` is stored as exactly 56. -/
theorem roundFloat64_fifty_six_metres :
    roundFloat64 (8070450532247929 / 144115188075855872 * 1000) = 56 := by
  rw [roundFloat64_eval _ 5 7881299347898368 (by norm_num) (by norm_num) (by norm_num)
    (by norm_num) (by norm_num) (by norm_num)]
  norm_num

/-! ## Proximity classification -/

theorem alertDecision_arrived (lib : GoLib) (delivery : Delivery) (d : ℚ) (h : d ≤ 50) :
    alertDecision lib delivery d =
      { alertLevel := "arrived", message := "Driver has arrived at your location",
        shouldUpdateStatus := true, newStatus := StatusDelivered } := by
  simp [alertDecision, proximityArrived, h]

theorem alertDecision_arriving_level (lib : GoLib) (delivery : Delivery) (d : ℚ)
    (h1 : 50 < d) (h2 : d ≤ 100) : (alertDecision lib delivery d).alertLevel = "arriving" := by
  simp [alertDecision, proximityArrived, proximityArriving, not_le.mpr h1, h2]

theorem alertDecision_nearby_level (lib : GoLib) (delivery : Delivery) (d : ℚ)
    (h1 : 100 < d) (h2 : d ≤ 500) : (alertDecision lib delivery d).alertLevel = "nearby" := by
  have h0 : ¬ d ≤ 50 := by linarith
  simp [alertDecision, proximityArrived, proximityArriving, proximityNear, h0, not_le.mpr h1, h2]

theorem alertDecision_far (lib : GoLib) (delivery : Delivery) (d : ℚ) (h : 500 < d) :
    alertDecision lib delivery d =
      { alertLevel := "", message := "", shouldUpdateStatus := false, newStatus := "" } := by
  have h0 : ¬ d ≤ 50 := by linarith
  have h1 : ¬ d ≤ 100 := by linarith
  simp [alertDecision, proximityArrived, proximityArriving, proximityNear, h0, h1, not_le.mpr h]

theorem checkProximityAlerts_head (lib : GoLib) (now : Time) (dbOk : Bool) (dt : DeliveryTracker)
    (delivery : Delivery) (driverLoc : DriverLocation) (distanceKm : ℚ)
    (h : (alertDecision lib delivery (roundFloat64 (distanceKm * 1000))).alertLevel ≠ "") :
    (checkProximityAlerts lib now dbOk dt delivery driverLoc distanceKm).2.head? =
      some (alertSend lib now delivery driverLoc (roundFloat64 (distanceKm * 1000))
        (alertDecision lib delivery (roundFloat64 (distanceKm * 1000))).alertLevel
        (alertDecision lib delivery (roundFloat64 (distanceKm * 1000))).message) := by
  unfold checkProximityAlerts
  simp only [h, ne_eq, not_false_eq_true, if_true]
  by_cases hs : (alertDecision lib delivery (roundFloat64 (distanceKm * 1000))).shouldUpdateStatus = true
  · simp [hs, alertSend]
  · simp [hs, alertSend]

/-- C1: with d the distance in metres as the program computes it (the `float64`
product `distanceKm * 1000`, rounded), `checkProximityAlerts` raises the alert
level "arrived" when d ≤ 50, "arriving" when 50 < d ≤ 100, "nearby" when
100 < d ≤ 500 (the alert is the first message handed to the hub), and hands
nothing to the hub when d > 500. -/
theorem checkProximityAlerts_bands (lib : GoLib) (now : Time) (dbOk : Bool)
    (dt : DeliveryTracker) (delivery : Delivery) (driverLoc : DriverLocation) (distanceKm : ℚ) :
    (roundFloat64 (distanceKm * 1000) ≤ 50 →
      (alertDecision lib delivery (roundFloat64 (distanceKm * 1000))).alertLevel = "arrived" ∧
      (checkProximityAlerts lib now dbOk dt delivery driverLoc distanceKm).2.head? =
        some (alertSend lib now delivery driverLoc (roundFloat64 (distanceKm * 1000)) "arrived"
          (alertDecision lib delivery (roundFloat64 (distanceKm * 1000))).message)) ∧
    (50 < roundFloat64 (distanceKm * 1000) → roundFloat64 (distanceKm * 1000) ≤ 100 →
      (alertDecision lib delivery (roundFloat64 (distanceKm * 1000))).alertLevel = "arriving" ∧
      (checkProximityAlerts lib now dbOk dt delivery driverLoc distanceKm).2.head? =
        some (alertSend lib now delivery driverLoc (roundFloat64 (distanceKm * 1000)) "arriving"
          (alertDecision lib delivery (roundFloat64 (distanceKm * 1000))).message)) ∧
    (100 < roundFloat64 (distanceKm * 1000) → roundFloat64 (distanceKm * 1000) ≤ 500 →
      (alertDecision lib delivery (roundFloat64 (distanceKm * 1000))).alertLevel = "nearby" ∧
      (checkProximityAlerts lib now dbOk dt delivery driverLoc distanceKm).2.head? =
        some (alertSend lib now delivery driverLoc (roundFloat64 (distanceKm * 1000)) "nearby"
          (alertDecision lib delivery (roundFloat64 (distanceKm * 1000))).message)) ∧
    (500 < roundFloat64 (distanceKm * 1000) →
      (alertDecision lib delivery (roundFloat64 (distanceKm * 1000))).alertLevel = "" ∧
      checkProximityAlerts lib now dbOk dt delivery driverLoc distanceKm = (dt, [])) := by
  refine ⟨fun h => ?_, fun h1 h2 => ?_, fun h1 h2 => ?_, fun h => ?_⟩
  · have e : (alertDecision lib delivery (roundFloat64 (distanceKm * 1000))).alertLevel = "arrived" := by
      rw [alertDecision_arrived lib delivery _ h]
    have hh := checkProximityAlerts_head lib now dbOk dt delivery driverLoc distanceKm
      (by rw [e]; decide)
    rw [e] at hh
    exact ⟨e, hh⟩
  · have e := alertDecision_arriving_level lib delivery _ h1 h2
    have hh := checkProximityAlerts_head lib now dbOk dt delivery driverLoc distanceKm
      (by rw [e]; decide)
    rw [e] at hh
    exact ⟨e, hh⟩
  · have e := alertDecision_nearby_level lib delivery _ h1 h2
    have hh := checkProximityAlerts_head lib now dbOk dt delivery driverLoc distanceKm
      (by rw [e]; decide)
    rw [e] at hh
    exact ⟨e, hh⟩
  · have e := alertDecision_far lib delivery _ h
    refine ⟨by rw [e], ?_⟩
    unfold checkProximityAlerts
    simp [e]

/-- The inclusive boundaries and the band in between: `float64(0.05)` km is
stored as exactly 50 m and is "arrived", `float64(0.1)` km is stored as exactly
100 m and is "arriving", and `float64(0.056)` km is 56 m and is "arriving". -/
theorem checkProximityAlerts_bands_witness :
    (alertDecision sampleLib sampleDelivery
        (roundFloat64 (3602879701896397 / 72057594037927936 * 1000))).alertLevel = "arrived" ∧
      (alertDecision sampleLib sampleDelivery
        (roundFloat64 (3602879701896397 / 36028797018963968 * 1000))).alertLevel = "arriving" ∧
      (alertDecision sampleLib sampleDelivery
        (roundFloat64 (8070450532247929 / 144115188075855872 * 1000))).alertLevel = "arriving" :=
  ⟨((checkProximityAlerts_bands sampleLib 0 true sampleTracker sampleDelivery sampleDriverLoc
      (3602879701896397 / 72057594037927936)).1
      (by rw [roundFloat64_fifty_metres])).1,
    ((checkProximityAlerts_bands sampleLib 0 true sampleTracker sampleDelivery sampleDriverLoc
      (3602879701896397 / 36028797018963968)).2.1
      (by rw [roundFloat64_hundred_metres]; norm_num)
      (by rw [roundFloat64_hundred_metres])).1,
    ((checkProximityAlerts_bands sampleLib 0 true sampleTracker sampleDelivery sampleDriverLoc
      (8070450532247929 / 144115188075855872)).2.1
      (by rw [roundFloat64_fifty_six_metres]; norm_num)
      (by rw [roundFloat64_fifty_six_metres]; norm_num)).1⟩

/-! ## Status changes driven by proximity -/

theorem checkProximityAlerts_no_update (lib : GoLib) (now : Time) (dbOk : Bool)
    (dt : DeliveryTracker) (delivery : Delivery) (driverLoc : DriverLocation) (distanceKm : ℚ)
    (h : (alertDecision lib delivery (roundFloat64 (distanceKm * 1000))).shouldUpdateStatus = false) :
    (checkProximityAlerts lib now dbOk dt delivery driverLoc distanceKm).1 = dt := by
  unfold checkProximityAlerts
  by_cases ha : (alertDecision lib delivery (roundFloat64 (distanceKm * 1000))).alertLevel = ""
  · simp [ha]
  · simp [ha, h]

theorem updateDeliveryStatus_deliveries (lib : GoLib) (now : Time) (dbOk : Bool)
    (dt : DeliveryTracker) (deliveryID : String) (newStatus : DeliveryStatus) (old : Delivery)
    (h : mapGet dt.deliveries deliveryID = some old) :
    (updateDeliveryStatus lib now dbOk dt deliveryID newStatus).1 =
      { dt with deliveries := (mapModify dt.deliveries deliveryID
          (fun d => { d with Status := newStatus, UpdatedAt := now })) } := by
  unfold updateDeliveryStatus
  rw [h]
  cases dbOk <;> simp

theorem checkProximityAlerts_update (lib : GoLib) (now : Time) (dbOk : Bool)
    (dt : DeliveryTracker) (delivery : Delivery) (driverLoc : DriverLocation) (distanceKm : ℚ)
    (old : Delivery) (hold : mapGet dt.deliveries delivery.ID = some old)
    (h : (alertDecision lib delivery (roundFloat64 (distanceKm * 1000))).shouldUpdateStatus = true)
    (ha : (alertDecision lib delivery (roundFloat64 (distanceKm * 1000))).alertLevel ≠ "") :
    (checkProximityAlerts lib now dbOk dt delivery driverLoc distanceKm).1 =
      { dt with deliveries := (mapModify dt.deliveries delivery.ID
          (fun d => { d with
            Status := (alertDecision lib delivery (roundFloat64 (distanceKm * 1000))).newStatus,
            UpdatedAt := now })) } := by
  unfold checkProximityAlerts
  simp only [ha, ne_eq, not_false_eq_true, if_true, h]
  exact updateDeliveryStatus_deliveries lib now dbOk dt delivery.ID _ old hold

theorem alertDecision_level_of_update (lib : GoLib) (delivery : Delivery) (d : ℚ)
    (h : (alertDecision lib delivery d).shouldUpdateStatus = true) :
    (alertDecision lib delivery d).alertLevel ≠ "" := by
  unfold alertDecision at h ⊢
  split_ifs at h ⊢ <;> simp_all

theorem isActiveStatus_cases (s : DeliveryStatus) (h : isActiveStatus s = true) :
    s = "assigned" ∨ s = "picked_up" ∨ s = "in_transit" ∨ s = "nearby" ∨ s = "arriving" := by
  simpa [isActiveStatus, StatusAssigned, StatusPickedUp, StatusInTransit, StatusNearby,
    StatusArriving, or_assoc] using h

theorem alertDecision_forward (lib : GoLib) (delivery : Delivery) (d : ℚ)
    (hact : isActiveStatus delivery.Status = true)
    (h : (alertDecision lib delivery d).shouldUpdateStatus = true) :
    statusRank delivery.Status < statusRank (alertDecision lib delivery d).newStatus := by
  have hc := isActiveStatus_cases _ hact
  unfold alertDecision at h ⊢
  split_ifs at h ⊢ <;>
    rcases hc with e | e | e | e | e <;>
    simp_all [statusRank, StatusDelivered, StatusArriving, StatusNearby]

/-- C2: for a delivery held in the tracker's table under its id, whatever its
status, and a distance of at most 50 m (the exact product `distanceKm * 1000`
is at most 50, or the `float64` product the program computes is),
`checkProximityAlerts` (which calls `updateDeliveryStatus`) raises the alert
level "arrived", decides a status update without looking at the prior status,
and leaves the stored delivery with status `delivered`, whether or not the
database write succeeds. -/
theorem arrived_forces_delivered (lib : GoLib) (now : Time) (dbOk : Bool)
    (dt : DeliveryTracker) (delivery : Delivery) (driverLoc : DriverLocation) (distanceKm : ℚ)
    (hheld : mapGet dt.deliveries delivery.ID = some delivery)
    (hd : distanceKm * 1000 ≤ 50 ∨ roundFloat64 (distanceKm * 1000) ≤ 50) :
    (checkProximityAlerts lib now dbOk dt delivery driverLoc distanceKm).2.head? =
        some (alertSend lib now delivery driverLoc (roundFloat64 (distanceKm * 1000)) "arrived"
          "Driver has arrived at your location") ∧
      (alertDecision lib delivery (roundFloat64 (distanceKm * 1000))).shouldUpdateStatus = true ∧
      mapGet (checkProximityAlerts lib now dbOk dt delivery driverLoc distanceKm).1.deliveries
          delivery.ID =
        some { delivery with Status := StatusDelivered, UpdatedAt := now } := by
  have hd2 : roundFloat64 (distanceKm * 1000) ≤ 50 := by
    rcases hd with h | h
    · exact roundFloat64_le_fifty _ h
    · exact h
  have e := alertDecision_arrived lib delivery _ hd2
  have hl : (alertDecision lib delivery (roundFloat64 (distanceKm * 1000))).alertLevel ≠ "" := by
    rw [e]; decide
  have hh := checkProximityAlerts_head lib now dbOk dt delivery driverLoc distanceKm hl
  have hu := checkProximityAlerts_update lib now dbOk dt delivery driverLoc distanceKm
    delivery hheld (by rw [e]) hl
  rw [e] at hh
  refine ⟨hh, by rw [e], ?_⟩
  rw [hu, e]
  simp [mapGet_mapModify_same, hheld]

/-- A driver exactly at the dropoff (distance 0) of a delivery in transit. -/
theorem arrived_forces_delivered_witness :
    mapGet sampleTracker.deliveries sampleDelivery.ID = some sampleDelivery ∧
      mapGet (checkProximityAlerts sampleLib 7 false sampleTracker sampleDelivery sampleDriverLoc
          0).1.deliveries sampleDelivery.ID =
        some { sampleDelivery with Status := StatusDelivered, UpdatedAt := 7 } :=
  ⟨by simp [mapGet, sampleTracker, sampleDelivery],
    (arrived_forces_delivered sampleLib 7 false sampleTracker sampleDelivery sampleDriverLoc 0
      (by simp [mapGet, sampleTracker, sampleDelivery])
      (Or.inl (by norm_num))).2.2⟩

theorem StatusForward.rfl_of (s : DeliveryStatus) : StatusForward s s := Or.inl rfl

theorem StatusForward.trans_of (s1 s2 s3 : DeliveryStatus) (h12 : StatusForward s1 s2)
    (h23 : StatusForward s2 s3) : StatusForward s1 s3 := by
  rcases h12 with e | ⟨ha, hr⟩
  · rw [e] at h23; exact h23
  · rcases h23 with e | ⟨_, hr2⟩
    · rw [e]; exact Or.inr ⟨ha, hr⟩
    · exact Or.inr ⟨ha, lt_trans hr hr2⟩

theorem StatusForward.arriving_not_nearby (s : DeliveryStatus)
    (h : StatusForward StatusArriving s) : s ≠ StatusNearby := by
  rcases h with e | ⟨_, hr⟩
  · rw [e]; decide
  · intro e
    rw [e] at hr
    revert hr
    decide

/-- One evaluation of proximity for a stored active delivery moves its status forward. -/
theorem checkProximityAlerts_forward (lib : GoLib) (now : Time) (dbOk : Bool)
    (dt : DeliveryTracker) (delivery : Delivery) (driverLoc : DriverLocation) (distanceKm : ℚ)
    (hact : isActiveStatus delivery.Status = true)
    (hheld : mapGet dt.deliveries delivery.ID = some delivery) :
    ∃ d2, mapGet (checkProximityAlerts lib now dbOk dt delivery driverLoc distanceKm).1.deliveries
        delivery.ID = some d2 ∧ StatusForward delivery.Status d2.Status := by
  by_cases hs : (alertDecision lib delivery (roundFloat64 (distanceKm * 1000))).shouldUpdateStatus = true
  · have hl := alertDecision_level_of_update lib delivery _ hs
    have hu := checkProximityAlerts_update lib now dbOk dt delivery driverLoc distanceKm
      delivery hheld hs hl
    refine ⟨{ delivery with
      Status := (alertDecision lib delivery (roundFloat64 (distanceKm * 1000))).newStatus,
      UpdatedAt := now }, ?_,
      Or.inr ⟨hact, alertDecision_forward lib delivery (roundFloat64 (distanceKm * 1000)) hact hs⟩⟩
    rw [hu]
    simp [mapGet_mapModify_same, hheld]
  · have hs2 : (alertDecision lib delivery (roundFloat64 (distanceKm * 1000))).shouldUpdateStatus = false := by
      simpa using hs
    rw [checkProximityAlerts_no_update lib now dbOk dt delivery driverLoc distanceKm hs2]
    exact ⟨delivery, hheld, Or.inl rfl⟩

/-- Outside the delivery under evaluation the table is left as it was, and the
table stays well keyed. -/
theorem checkProximityAlerts_frame (lib : GoLib) (now : Time) (dbOk : Bool)
    (dt : DeliveryTracker) (delivery : Delivery) (driverLoc : DriverLocation) (distanceKm : ℚ)
    (hwk : WellKeyed dt) (hheld : mapGet dt.deliveries delivery.ID = some delivery) :
    WellKeyed (checkProximityAlerts lib now dbOk dt delivery driverLoc distanceKm).1 ∧
      ∀ k, k ≠ delivery.ID →
        mapGet (checkProximityAlerts lib now dbOk dt delivery driverLoc distanceKm).1.deliveries k
          = mapGet dt.deliveries k := by
  by_cases hs : (alertDecision lib delivery (roundFloat64 (distanceKm * 1000))).shouldUpdateStatus = true
  · have hl := alertDecision_level_of_update lib delivery _ hs
    have hu := checkProximityAlerts_update lib now dbOk dt delivery driverLoc distanceKm
      delivery hheld hs hl
    rw [hu]
    refine ⟨⟨?_, ?_⟩, fun k hk => ?_⟩
    · simpa [map_fst_mapModify] using hwk.1
    · intro p hp
      rcases mem_mapModify _ _ _ p hp with h1 | ⟨v, hv, e⟩
      · exact hwk.2 p h1
      · rw [e]
        exact (hwk.2 _ hv : delivery.ID = v.ID)
    · exact mapGet_mapModify_other _ _ _ _ hk
  · have hs2 : (alertDecision lib delivery (roundFloat64 (distanceKm * 1000))).shouldUpdateStatus = false := by
      simpa using hs
    rw [checkProximityAlerts_no_update lib now dbOk dt delivery driverLoc distanceKm hs2]
    exact ⟨hwk, fun _ _ => rfl⟩

theorem getActiveDeliveryForDriver_some (dt : DeliveryTracker) (driverID : String)
    (delivery : Delivery) (hwk : WellKeyed dt)
    (h : getActiveDeliveryForDriver dt driverID = some delivery) :
    mapGet dt.deliveries delivery.ID = some delivery ∧ isActiveStatus delivery.Status = true ∧
      delivery.DriverID = driverID := by
  unfold getActiveDeliveryForDriver at h
  rcases hf : dt.deliveries.find?
    (fun p => decide (p.2.DriverID = driverID) && isActiveStatus p.2.Status) with _ | ⟨k, d⟩
  · rw [hf] at h; simp at h
  · rw [hf] at h
    simp only [Option.map_some', Option.some.injEq] at h
    subst h
    have hmem := List.mem_of_find?_eq_some hf
    have hp := List.find?_some hf
    simp only [Bool.and_eq_true, decide_eq_true_eq] at hp
    have hk : k = d.ID := hwk.2 _ hmem
    subst hk
    exact ⟨mapGet_of_mem _ _ _ hwk.1 hmem, hp.2, hp.1⟩

/-- One location report keeps the table well keyed and moves every stored
status forward. -/
theorem processLocationUpdate_forward (lib : GoLib) (now : Time) (dbOk : Bool)
    (dt : DeliveryTracker) (driverLoc : DriverLocation) (hwk : WellKeyed dt) :
    WellKeyed (processLocationUpdate lib now dbOk dt driverLoc).1 ∧
      ∀ k d, mapGet dt.deliveries k = some d →
        ∃ d2, mapGet (processLocationUpdate lib now dbOk dt driverLoc).1.deliveries k = some d2 ∧
          StatusForward d.Status d2.Status := by
  unfold processLocationUpdate
  simp only
  rcases hg : getActiveDeliveryForDriver
    { dt with lastLocations := mapSet dt.lastLocations driverLoc.DriverID driverLoc }
    driverLoc.DriverID with _ | delivery
  · exact ⟨hwk, fun k d h => ⟨d, h, Or.inl rfl⟩⟩
  · have hwk1 : WellKeyed
        { dt with lastLocations := mapSet dt.lastLocations driverLoc.DriverID driverLoc } := hwk
    obtain ⟨hheld, hact, _⟩ := getActiveDeliveryForDriver_some _ _ _ hwk1 hg
    simp only
    obtain ⟨hw2, hfr⟩ := checkProximityAlerts_frame lib now dbOk _ delivery driverLoc
      (calculateDistance lib driverLoc.Location.Lat driverLoc.Location.Lon
        delivery.DropoffLat delivery.DropoffLon) hwk1 hheld
    refine ⟨hw2, fun k d h => ?_⟩
    by_cases hk : k = delivery.ID
    · subst hk
      have hd : d = delivery := by
        have : mapGet dt.deliveries delivery.ID = some delivery := hheld
        rw [h] at this
        exact Option.some.inj this
      subst hd
      exact checkProximityAlerts_forward lib now dbOk _ d driverLoc _ hact hheld
    · exact ⟨d, by rw [hfr k hk]; exact h, Or.inl rfl⟩

theorem Reports.forward (lib : GoLib) (dt dt2 : DeliveryTracker) (hwk : WellKeyed dt)
    (hr : Reports lib dt dt2) :
    WellKeyed dt2 ∧ ∀ k d, mapGet dt.deliveries k = some d →
      ∃ d2, mapGet dt2.deliveries k = some d2 ∧ StatusForward d.Status d2.Status := by
  induction hr with
  | refl => exact ⟨hwk, fun k d h => ⟨d, h, Or.inl rfl⟩⟩
  | step dt1 ds now dbOk driverLoc _ hperm ih =>
    obtain ⟨hw1, hf1⟩ := ih
    have hw : WellKeyed { dt1 with deliveries := ds } :=
      ⟨(hperm.map Prod.fst).nodup_iff.mp hw1.1, fun p hp => hw1.2 p (hperm.symm.subset hp)⟩
    obtain ⟨hw2, hf2⟩ := processLocationUpdate_forward lib now dbOk _ driverLoc hw
    refine ⟨hw2, fun k d h => ?_⟩
    obtain ⟨d1, hd1, hs1⟩ := hf1 k d h
    obtain ⟨d2, hd2, hs2⟩ := hf2 k d1 (mapGet_perm _ _ _ _ hw1.1 hperm hd1)
    exact ⟨d2, hd2, StatusForward.trans_of _ _ _ hs1 hs2⟩

/-- C3: proximity only moves a status forward in the order
assigned / picked_up / in_transit < nearby < arriving < delivered.
(1) For a stored delivery with an active status and any distance, the status
after `checkProximityAlerts` is the old one or a strictly later one.
(2) A delivery at `arriving` evaluated at 100 m < d ≤ 500 m (for the exact
product `distanceKm * 1000` or for the `float64` product the program computes)
leaves the tracker as it was. (3) Over any sequence of location reports, whatever order the table
is visited in, every stored status only moves forward, and a delivery at
`arriving` is never set to `nearby`. -/
theorem proximity_status_only_forward (lib : GoLib) :
    (∀ (now : Time) (dbOk : Bool) (dt : DeliveryTracker) (delivery : Delivery)
        (driverLoc : DriverLocation) (distanceKm : ℚ),
        isActiveStatus delivery.Status = true →
        mapGet dt.deliveries delivery.ID = some delivery →
        ∃ d2,
          mapGet (checkProximityAlerts lib now dbOk dt delivery driverLoc distanceKm).1.deliveries
            delivery.ID = some d2 ∧
          (d2.Status = delivery.Status ∨ statusRank delivery.Status < statusRank d2.Status)) ∧
    (∀ (now : Time) (dbOk : Bool) (dt : DeliveryTracker) (delivery : Delivery)
        (driverLoc : DriverLocation) (distanceKm : ℚ),
        delivery.Status = StatusArriving →
        ((100 < distanceKm * 1000 ∧ distanceKm * 1000 ≤ 500) ∨
          (100 < roundFloat64 (distanceKm * 1000) ∧ roundFloat64 (distanceKm * 1000) ≤ 500)) →
        (checkProximityAlerts lib now dbOk dt delivery driverLoc distanceKm).1 = dt) ∧
    (∀ (dt dt2 : DeliveryTracker) (k : String) (d : Delivery),
        WellKeyed dt → Reports lib dt dt2 → mapGet dt.deliveries k = some d →
        ∃ d2, mapGet dt2.deliveries k = some d2 ∧
          (d2.Status = d.Status ∨
            (isActiveStatus d.Status = true ∧ statusRank d.Status < statusRank d2.Status)) ∧
          (d.Status = StatusArriving → d2.Status ≠ StatusNearby)) := by
  refine ⟨?_, ?_, ?_⟩
  · intro now dbOk dt delivery driverLoc distanceKm hact hheld
    obtain ⟨d2, h1, h2⟩ :=
      checkProximityAlerts_forward lib now dbOk dt delivery driverLoc distanceKm hact hheld
    refine ⟨d2, h1, ?_⟩
    rcases h2 with e | ⟨_, hr⟩
    · exact Or.inl e
    · exact Or.inr hr
  · intro now dbOk dt delivery driverLoc distanceKm hs hband
    apply checkProximityAlerts_no_update
    have h0 : ¬ roundFloat64 (distanceKm * 1000) ≤ 50 := by
      rcases hband with ⟨h1, _⟩ | ⟨h1, _⟩
      · have := roundFloat64_ge_hundred _ h1
        linarith
      · linarith
    unfold alertDecision
    rw [if_neg (by simpa [proximityArrived] using h0)]
    split_ifs <;> simp [hs]
  · intro dt dt2 k d hwk hr hk
    obtain ⟨d2, h1, h2⟩ := (Reports.forward lib dt dt2 hwk hr).2 k d hk
    refine ⟨d2, h1, h2, fun hs => ?_⟩
    rw [hs] at h2
    exact StatusForward.arriving_not_nearby _ h2

/-- One report for the sample delivery: its status moves forward. -/
theorem proximity_status_only_forward_witness :
    WellKeyed sampleTracker ∧
      ∃ d2, mapGet (processLocationUpdate sampleLib 0 true sampleTracker
          sampleDriverLoc).1.deliveries "D1" = some d2 ∧
        (d2.Status = sampleDelivery.Status ∨
          (isActiveStatus sampleDelivery.Status = true ∧
            statusRank sampleDelivery.Status < statusRank d2.Status)) ∧
        (sampleDelivery.Status = StatusArriving → d2.Status ≠ StatusNearby) :=
  have hwk : WellKeyed sampleTracker := by
    constructor
    · simp [sampleTracker]
    · intro p hp
      simp only [sampleTracker, List.mem_singleton] at hp
      rw [hp]
      rfl
  ⟨hwk, (proximity_status_only_forward sampleLib).2.2 sampleTracker _ "D1" sampleDelivery hwk
    (Reports.step sampleTracker sampleTracker sampleTracker.deliveries 0 true sampleDriverLoc
      (Reports.refl _) (List.Perm.refl _))
    (by simp [mapGet, sampleTracker])⟩

/-! ## The hub: lemmas -/

theorem mapGet_mapSet_same {β : Type} (m : List (String × β)) (k : String) (v : β) :
    mapGet (mapSet m k v) k = some v := by
  induction m with
  | nil => simp [mapSet, mapGet]
  | cons p rest ih =>
    obtain ⟨k', v'⟩ := p
    by_cases h : k' = k
    · simp [mapSet, mapGet, h]
    · simp [mapSet, mapGet, h, ih]

theorem mapGet_mapSet_other {β : Type} (m : List (String × β)) (k k2 : String) (v : β)
    (hne : k2 ≠ k) : mapGet (mapSet m k v) k2 = mapGet m k2 := by
  induction m with
  | nil =>
    have h2 : ¬ k = k2 := fun e => hne e.symm
    simp [mapSet, mapGet, h2]
  | cons p rest ih =>
    obtain ⟨k', v'⟩ := p
    by_cases h : k' = k
    · subst h
      have h2 : ¬ k' = k2 := fun e => hne e.symm
      simp [mapSet, mapGet, h2]
    · by_cases h3 : k' = k2
      · subst h3
        simp [mapSet, mapGet, h]
      · simp [mapSet, mapGet, h, h3, ih]

theorem mem_setInsert (s : List Client) (c x : Client) :
    x ∈ setInsert s c ↔ x ∈ s ∨ x = c := by
  unfold setInsert
  by_cases h : c ∈ s
  · simp only [h, if_true]
    constructor
    · exact Or.inl
    · rintro (h1 | h1)
      · exact h1
      · rw [h1]; exact h
  · simp [h]

theorem mem_setDelete (s : List Client) (c x : Client) :
    x ∈ setDelete s c ↔ x ∈ s ∧ x ≠ c := by
  simp [setDelete]

theorem setSend_self (h : Hub) (c : Client) : setSend h c (h.send c) = h := by
  cases h
  simp [setSend]

theorem setSend_send_same (h : Hub) (c : Client) (ch : Chan) : (setSend h c ch).send c = ch := by
  simp [setSend]

theorem setSend_send_other (h : Hub) (c x : Client) (ch : Chan) (hne : x ≠ c) :
    (setSend h c ch).send x = h.send x := by
  simp [setSend, Function.update_noteq hne]

theorem registerClient_clients (h : Hub) (c : Client) :
    (registerClient h c).clients = setInsert h.clients c := by
  unfold registerClient
  simp only
  split_ifs <;> rfl

theorem registerClient_send (h : Hub) (c : Client) : (registerClient h c).send = h.send := by
  unfold registerClient
  simp only
  split_ifs <;> rfl

theorem registerClient_deliveries (h : Hub) (c : Client) :
    (registerClient h c).deliveries =
      if c.userType = "customer" ∧ c.deliveryID ≠ "" then
        mapSet h.deliveries c.deliveryID ((mapGet h.deliveries c.deliveryID).getD [] ++ [c])
      else h.deliveries := by
  unfold registerClient
  simp only
  by_cases h1 : c.userType = "driver"
  · have h2 : ¬ c.userType = "customer" := by rw [h1]; decide
    simp [h1, h2]
  · by_cases h2 : c.userType = "customer"
    · by_cases h3 : c.deliveryID = ""
      · simp [h1, h2, h3]
      · simp [h1, h2, h3]
    · simp [h1, h2]

theorem unregisterClient_absent (h : Hub) (c : Client) (hc : c ∉ h.clients) :
    unregisterClient h c = .ok h := by
  unfold unregisterClient
  simp [hc]

/-- What a successful `unregisterClient` of a registered session has done. -/
theorem unregisterClient_present (h h2 : Hub) (c : Client) (hc : c ∈ h.clients)
    (hok : unregisterClient h c = .ok h2) :
    (h.send c).closed = false ∧
      h2.clients = setDelete h.clients c ∧
      h2.send = Function.update h.send c { h.send c with closed := true } ∧
      h2.deliveries =
        (if c.userType = "customer" ∧ c.deliveryID ≠ "" then
          removeFromIndex h.deliveries c.deliveryID c
        else h.deliveries) ∧
      h2.customers =
        (if c.userType = "customer" then removeFromIndex h.customers c.userID c
        else h.customers) := by
  unfold unregisterClient at hok
  simp only [hc, if_true] at hok
  by_cases hcl : (h.send c).closed = true
  · simp [closeSend, hcl] at hok
  · have hcl2 : (h.send c).closed = false := by simpa using hcl
    simp only [closeSend, hcl2, Bool.false_eq_true, if_false] at hok
    by_cases h1 : c.userType = "driver"
    · have h2c : ¬ c.userType = "customer" := by rw [h1]; decide
      rw [if_pos h1] at hok
      simp only [Except.ok.injEq] at hok
      subst hok
      simp [setSend, h2c, hcl2]
    · by_cases h2c : c.userType = "customer"
      · rw [if_neg h1, if_pos h2c] at hok
        simp only [Except.ok.injEq] at hok
        subst hok
        by_cases h3 : c.deliveryID = ""
        · simp [removeCustomerClient, setSend, h2c, h3, hcl2]
        · simp [removeCustomerClient, setSend, h2c, h3, hcl2]
      · rw [if_neg h1, if_neg h2c] at hok
        simp only [Except.ok.injEq] at hok
        subst hok
        simp [setSend, h2c, hcl2]

theorem mapGet_removeFromIndex_same (index : List (String × List Client)) (key : String)
    (c : Client) :
    mapGet (removeFromIndex index key c) key = (mapGet index key).map (fun l => l.erase c) := by
  unfold removeFromIndex
  rcases hg : mapGet index key with _ | cl
  · simp [hg]
  · by_cases hm : c ∈ cl
    · simp [hm, mapGet_mapSet_same]
    · simp [hm, hg, List.erase_of_not_mem hm]

theorem mapGet_removeFromIndex_other (index : List (String × List Client)) (key key2 : String)
    (c : Client) (hne : key2 ≠ key) :
    mapGet (removeFromIndex index key c) key2 = mapGet index key2 := by
  unfold removeFromIndex
  rcases hg : mapGet index key with _ | cl
  · rfl
  · by_cases hm : c ∈ cl
    · simp [hm, mapGet_mapSet_other _ _ _ _ hne]
    · simp [hm]

theorem WatchersLive.newHub_live : WatchersLive newHub := by
  constructor
  · intro c hc
    simp [newHub] at hc
  · intro D cl h
    simp [newHub, mapGet] at h

theorem WatchersLive.serveWs_live (h : Hub) (addr : Nat) (userID userType deliveryID : String)
    (hinv : WatchersLive h) (hfresh : ¬ refers h ⟨addr, userID, userType, deliveryID⟩) :
    WatchersLive (serveWs h addr userID userType deliveryID) := by
  unfold serveWs
  by_cases hrej : userID = "" ∨ userType = ""
  · simp only [hrej, if_true]
    exact hinv
  · simp only [hrej, if_false]
    generalize hc : (⟨addr, userID, userType, deliveryID⟩ : Client) = c at hfresh ⊢
    have hut : c.userType = userType := by rw [← hc]
    have hdid : c.deliveryID = deliveryID := by rw [← hc]
    constructor
    · intro x hx
      rw [registerClient_clients, mem_setInsert] at hx
      rw [registerClient_send]
      by_cases hxc : x = c
      · rw [hxc, setSend_send_same]
        rfl
      · rw [setSend_send_other _ _ _ _ hxc]
        rcases hx with hx | hx
        · exact hinv.1 x hx
        · exact absurd hx hxc
    · intro D cl hD
      rw [registerClient_deliveries] at hD
      rw [registerClient_clients]
      have hmono : ∀ x, x ∈ h.clients → x ∈ setInsert h.clients c := fun x hx =>
        (mem_setInsert _ _ _).mpr (Or.inl hx)
      have hold : ∀ cl0, mapGet h.deliveries D = some cl0 →
          cl0.Nodup ∧ ∀ x ∈ cl0, x ∈ setInsert h.clients c ∧ x.userType = "customer" ∧
            x.deliveryID = D ∧ D ≠ "" := by
        intro cl0 h0
        obtain ⟨hn, hm⟩ := hinv.2 D cl0 h0
        exact ⟨hn, fun x hx => ⟨hmono x (hm x hx).1, (hm x hx).2⟩⟩
      by_cases hcond : c.userType = "customer" ∧ c.deliveryID ≠ ""
      · simp only [hcond, ne_eq, not_false_eq_true, and_self, if_true] at hD
        change mapGet (mapSet h.deliveries c.deliveryID
          ((mapGet h.deliveries c.deliveryID).getD [] ++ [c])) D = some cl at hD
        by_cases hkey : D = c.deliveryID
        · subst hkey
          rw [mapGet_mapSet_same] at hD
          simp only [Option.some.injEq] at hD
          subst hD
          rcases hg : mapGet h.deliveries c.deliveryID with _ | old
          · simp only [Option.getD_none, List.nil_append, List.nodup_cons, List.not_mem_nil,
              not_false_eq_true, List.nodup_nil, and_self, List.mem_singleton, true_and]
            intro x hx
            subst hx
            exact ⟨(mem_setInsert _ _ _).mpr (Or.inr rfl), hcond.1, rfl, hcond.2⟩
          · obtain ⟨hn, hm⟩ := hold old hg
            have hnot : c ∉ old := fun hmem =>
              hfresh (Or.inr (Or.inr (Or.inr ⟨c.deliveryID, old, hg, hmem⟩)))
            simp only [Option.getD_some]
            refine ⟨List.Nodup.append hn (List.nodup_singleton c) ?_, ?_⟩
            · intro x hx1 hx2
              rw [List.mem_singleton] at hx2
              subst hx2
              exact hnot hx1
            · intro x hx
              rw [List.mem_append, List.mem_singleton] at hx
              rcases hx with hx | hx
              · exact hm x hx
              · subst hx
                exact ⟨(mem_setInsert _ _ _).mpr (Or.inr rfl), hcond.1, rfl, hcond.2⟩
        · rw [mapGet_mapSet_other _ _ _ _ hkey] at hD
          exact hold cl hD
      · rw [if_neg hcond] at hD
        exact hold cl hD

theorem WatchersLive.unregister_live (h h2 : Hub) (c : Client) (hinv : WatchersLive h)
    (hok : unregisterClient h c = .ok h2) : WatchersLive h2 := by
  by_cases hc : c ∈ h.clients
  · obtain ⟨_, hcl, hsend, hdel, _⟩ := unregisterClient_present h h2 c hc hok
    have hkeep : ∀ x, x ∈ h.clients → x ≠ c → x ∈ h2.clients := fun x hx hne => by
      rw [hcl, mem_setDelete]
      exact ⟨hx, hne⟩
    constructor
    · intro x hx
      rw [hcl, mem_setDelete] at hx
      rw [hsend, Function.update_noteq hx.2]
      exact hinv.1 x hx.1
    · intro D cl hD
      rw [hdel] at hD
      by_cases hcond : c.userType = "customer" ∧ c.deliveryID ≠ ""
      · rw [if_pos hcond] at hD
        by_cases hkey : D = c.deliveryID
        · subst hkey
          rw [mapGet_removeFromIndex_same] at hD
          rcases hg : mapGet h.deliveries c.deliveryID with _ | old
          · rw [hg] at hD
            simp at hD
          · rw [hg] at hD
            simp only [Option.map_some', Option.some.injEq] at hD
            subst hD
            obtain ⟨hn, hm⟩ := hinv.2 _ old hg
            refine ⟨hn.erase c, fun x hx => ?_⟩
            rw [hn.mem_erase_iff] at hx
            exact ⟨hkeep x (hm x hx.2).1 hx.1, (hm x hx.2).2⟩
        · rw [mapGet_removeFromIndex_other _ _ _ _ hkey] at hD
          obtain ⟨hn, hm⟩ := hinv.2 D cl hD
          refine ⟨hn, fun x hx => ⟨hkeep x (hm x hx).1 ?_, (hm x hx).2⟩⟩
          intro e
          apply hkey
          rw [← (hm x hx).2.2.1, e]
      · rw [if_neg hcond] at hD
        obtain ⟨hn, hm⟩ := hinv.2 D cl hD
        refine ⟨hn, fun x hx => ⟨hkeep x (hm x hx).1 ?_, (hm x hx).2⟩⟩
        intro e
        apply hcond
        rw [← e]
        refine ⟨(hm x hx).2.1, ?_⟩
        rw [(hm x hx).2.2.1]
        exact (hm x hx).2.2.2
  · rw [unregisterClient_absent h c hc] at hok
    simp only [Except.ok.injEq] at hok
    rw [← hok]
    exact hinv

theorem RegReachable.live (h : Hub) (hr : RegReachable h) : WatchersLive h := by
  induction hr with
  | empty => exact WatchersLive.newHub_live
  | register h addr userID userType deliveryID _ hfresh ih =>
    exact WatchersLive.serveWs_live h addr userID userType deliveryID ih hfresh
  | unregister h h2 client _ hok ih => exact WatchersLive.unregister_live h h2 client ih hok

/-- A turn of the watcher loop on an open queue: the message is appended when
the buffer has room, and nothing changes when it is full. -/
theorem watcherStep_open (message : Bytes) (h : Hub) (c : Client)
    (hopen : (h.send c).closed = false) :
    watcherStep message h c =
      .ok (setSend h c (if hasRoom h c then chanPush (h.send c) message else h.send c)) := by
  unfold watcherStep hasRoom
  simp only [hopen, Bool.false_eq_true, if_false]
  by_cases hr : (h.send c).buf.length < (h.send c).cap
  · simp [hr]
  · simp [hr, setSend_self]

/-- The watcher loop over open queues returns normally, leaves the registry and
every queue outside the list alone, never closes a queue, leaves a full queue
as it is, and appends the message to each listed queue that has room. -/
theorem watcherLoop_spec (message : Bytes) (cl : List Client) :
    ∀ h : Hub, (∀ c ∈ cl, (h.send c).closed = false) →
      ∃ h2, watcherLoop message cl h = .ok h2 ∧ SameRegistry h h2 ∧
        (∀ c, c ∉ cl → h2.send c = h.send c) ∧
        (∀ c, (h2.send c).closed = (h.send c).closed ∧ (h2.send c).cap = (h.send c).cap) ∧
        (∀ c, ¬ hasRoom h c → h2.send c = h.send c) ∧
        (cl.Nodup → ∀ c ∈ cl, hasRoom h c → h2.send c = chanPush (h.send c) message) := by
  induction cl with
  | nil =>
    intro h _
    exact ⟨h, rfl, ⟨rfl, rfl, rfl, rfl⟩, fun _ _ => rfl, fun _ => ⟨rfl, rfl⟩, fun _ _ => rfl,
      fun _ c hc => absurd hc (List.not_mem_nil c)⟩
  | cons c0 rest ih =>
    intro h hopen
    have hstep := watcherStep_open message h c0 (hopen c0 (List.mem_cons_self _ _))
    generalize hh1 : setSend h c0 (if hasRoom h c0 then chanPush (h.send c0) message
      else h.send c0) = h1 at hstep
    have hs0 : h1.send c0 = if hasRoom h c0 then chanPush (h.send c0) message else h.send c0 := by
      rw [← hh1, setSend_send_same]
    have hsx : ∀ x, x ≠ c0 → h1.send x = h.send x := fun x hx => by
      rw [← hh1, setSend_send_other _ _ _ _ hx]
    have hflags : ∀ x, (h1.send x).closed = (h.send x).closed ∧
        (h1.send x).cap = (h.send x).cap := by
      intro x
      by_cases hx : x = c0
      · subst hx
        rw [hs0]
        by_cases hr : hasRoom h x
        · simp [hr, chanPush]
        · simp [hr]
      · rw [hsx x hx]
        exact ⟨rfl, rfl⟩
    have hreg : SameRegistry h h1 := by
      rw [← hh1]
      exact ⟨rfl, rfl, rfl, rfl⟩
    have hopen1 : ∀ c ∈ rest, (h1.send c).closed = false := fun c hc => by
      rw [(hflags c).1]
      exact hopen c (List.mem_cons_of_mem _ hc)
    obtain ⟨h2, hrun, hreg2, hout, hfl2, hfull, hpush⟩ := ih h1 hopen1
    refine ⟨h2, ?_, ?_, ?_, ?_, ?_, ?_⟩
    · simp only [watcherLoop, hstep]
      exact hrun
    · exact ⟨hreg2.1.trans hreg.1, hreg2.2.1.trans hreg.2.1, hreg2.2.2.1.trans hreg.2.2.1,
        hreg2.2.2.2.trans hreg.2.2.2⟩
    · intro c hc
      rw [List.mem_cons, not_or] at hc
      rw [hout c hc.2, hsx c hc.1]
    · intro c
      exact ⟨(hfl2 c).1.trans (hflags c).1, (hfl2 c).2.trans (hflags c).2⟩
    · intro c hc
      have h1c : h1.send c = h.send c := by
        by_cases hx : c = c0
        · subst hx
          rw [hs0, if_neg hc]
        · exact hsx c hx
      have hc1 : ¬ hasRoom h1 c := by
        unfold hasRoom at hc ⊢
        rw [h1c]
        exact hc
      rw [hfull c hc1, h1c]
    · intro hnd c hc hroom
      rw [List.nodup_cons] at hnd
      rw [List.mem_cons] at hc
      rcases hc with hc | hc
      · subst hc
        rw [hout c hnd.1, hs0, if_pos hroom]
      · have hne : c ≠ c0 := fun e => hnd.1 (e ▸ hc)
        have hroom1 : hasRoom h1 c := by
          unfold hasRoom at hroom ⊢
          rw [hsx c hne]
          exact hroom
        rw [hpush hnd.2 c hc hroom1, hsx c hne]

/-- C4: in every hub state reached by registrations and unregistrations,
`sendToDeliveryWatchers D m` returns normally, leaves the registry as it is,
leaves unchanged the queue of every session that is not a customer session
with delivery id exactly `D` (drivers, customers of another delivery or of
none), and changes a queue only by appending `m` to the queue of a registered
customer session whose delivery id is `D`. -/
theorem sendToDeliveryWatchers_frame (h : Hub) (hr : RegReachable h) (D : String) (m : Bytes) :
    ∃ h2, sendToDeliveryWatchers h D m = .ok h2 ∧ SameRegistry h h2 ∧
      (∀ c, ¬ (c.userType = "customer" ∧ c.deliveryID = D) → h2.send c = h.send c) ∧
      (∀ c, h2.send c = h.send c ∨
        (c ∈ h.clients ∧ c.userType = "customer" ∧ c.deliveryID = D ∧
          h2.send c = chanPush (h.send c) m)) := by
  have hinv := RegReachable.live h hr
  unfold sendToDeliveryWatchers
  rcases hg : mapGet h.deliveries D with _ | cl
  · exact ⟨h, rfl, ⟨rfl, rfl, rfl, rfl⟩, fun _ _ => rfl, fun _ => Or.inl rfl⟩
  · obtain ⟨hn, hm⟩ := hinv.2 D cl hg
    obtain ⟨h2, hrun, hreg, hout, _, hfull, hpush⟩ :=
      watcherLoop_spec m cl h (fun c hc => hinv.1 c (hm c hc).1)
    refine ⟨h2, hrun, hreg, fun c hc => ?_, fun c => ?_⟩
    · apply hout
      intro hmem
      exact hc ⟨(hm c hmem).2.1, (hm c hmem).2.2.1⟩
    · by_cases hmem : c ∈ cl
      · by_cases hroom : hasRoom h c
        · exact Or.inr ⟨(hm c hmem).1, (hm c hmem).2.1, (hm c hmem).2.2.1,
            hpush hn c hmem hroom⟩
        · exact Or.inl (hfull c hroom)
      · exact Or.inl (hout c hmem)

theorem sampleHub_regReachable : RegReachable sampleHub := by
  unfold sampleHub
  apply RegReachable.register
  · apply RegReachable.register
    · exact RegReachable.empty
    · simp [refers, newHub, mapGet]
  · simp [refers, newHub, mapGet, serveWs, registerClient, setSend, setInsert, mapSet]

/-- A send to the watchers of `D1` in the sample hub leaves the driver's queue alone. -/
theorem sendToDeliveryWatchers_frame_witness :
    RegReachable sampleHub ∧
      ∃ h2, sendToDeliveryWatchers sampleHub "D1" "m" = .ok h2 ∧ SameRegistry sampleHub h2 ∧
        (∀ c, ¬ (c.userType = "customer" ∧ c.deliveryID = "D1") →
          h2.send c = sampleHub.send c) ∧
        (∀ c, h2.send c = sampleHub.send c ∨
          (c ∈ sampleHub.clients ∧ c.userType = "customer" ∧ c.deliveryID = "D1" ∧
            h2.send c = chanPush (sampleHub.send c) "m")) :=
  ⟨sampleHub_regReachable, sendToDeliveryWatchers_frame sampleHub sampleHub_regReachable "D1" "m"⟩

/-! ## Full queues -/

/-- A turn of the broadcast loop on an open queue. -/
theorem broadcastStep_open (message : Bytes) (h : Hub) (c : Client)
    (hopen : (h.send c).closed = false) :
    ∃ h1, broadcastStep message h c = .ok h1 ∧
      h1.drivers = h.drivers ∧ h1.customers = h.customers ∧ h1.deliveries = h.deliveries ∧
      (∀ x, x ≠ c → h1.send x = h.send x) ∧
      h1.send c = (if hasRoom h c then chanPush (h.send c) message
        else { h.send c with closed := true }) ∧
      (∀ x, x ∈ h1.clients ↔ x ∈ h.clients ∧ (x ≠ c ∨ hasRoom h c)) := by
  unfold broadcastStep
  simp only [hopen, Bool.false_eq_true, if_false]
  by_cases hr : (h.send c).buf.length < (h.send c).cap
  · have hr2 : hasRoom h c := hr
    refine ⟨setSend h c (chanPush (h.send c) message), by rw [if_pos hr], rfl, rfl, rfl,
      fun x hx => setSend_send_other _ _ _ _ hx, ?_, ?_⟩
    · rw [setSend_send_same, if_pos hr2]
    · intro x
      simp [setSend, hr2]
  · have hr2 : ¬ hasRoom h c := hr
    refine ⟨{ setSend h c { h.send c with closed := true } with
        clients := setDelete h.clients c },
      by rw [if_neg hr]; simp only [closeSend, hopen, Bool.false_eq_true, if_false]; rfl,
      rfl, rfl, rfl, fun x hx => setSend_send_other _ _ _ _ hx, ?_, ?_⟩
    · simp only [setSend_send_same, if_neg hr2]
    · intro x
      simp [setSend, hr2, mem_setDelete]

/-- The broadcast loop over distinct sessions with open queues returns normally
and leaves the three indices alone; a visited session with room gets the
message, a visited session whose buffer is full has its queue closed and is
deleted from the session set. -/
theorem broadcastLoop_spec (message : Bytes) (l : List Client) :
    ∀ h : Hub, l.Nodup → (∀ c ∈ l, (h.send c).closed = false) →
      ∃ h2, broadcastLoop message l h = .ok h2 ∧
        h2.drivers = h.drivers ∧ h2.customers = h.customers ∧ h2.deliveries = h.deliveries ∧
        (∀ c, c ∉ l → h2.send c = h.send c) ∧
        (∀ c ∈ l, h2.send c = (if hasRoom h c then chanPush (h.send c) message
          else { h.send c with closed := true })) ∧
        (∀ c, c ∈ h2.clients ↔ c ∈ h.clients ∧ (c ∉ l ∨ hasRoom h c)) := by
  induction l with
  | nil =>
    intro h _ _
    exact ⟨h, rfl, rfl, rfl, rfl, fun _ _ => rfl, fun c hc => absurd hc (List.not_mem_nil c),
      fun c => by simp⟩
  | cons c0 rest ih =>
    intro h hnd hopen
    rw [List.nodup_cons] at hnd
    obtain ⟨h1, hstep, hd1, hc1, hdl1, hsx, hs0, hcl1⟩ :=
      broadcastStep_open message h c0 (hopen c0 (List.mem_cons_self _ _))
    have hne : ∀ c ∈ rest, c ≠ c0 := fun c hc e => hnd.1 (e ▸ hc)
    have hroom : ∀ c, c ≠ c0 → (hasRoom h1 c ↔ hasRoom h c) := fun c hc => by
      unfold hasRoom
      rw [hsx c hc]
    have hopen1 : ∀ c ∈ rest, (h1.send c).closed = false := fun c hc => by
      rw [hsx c (hne c hc)]
      exact hopen c (List.mem_cons_of_mem _ hc)
    obtain ⟨h2, hrun, hd2, hc2, hdl2, hout, hin, hcl2⟩ := ih h1 hnd.2 hopen1
    refine ⟨h2, ?_, hd2.trans hd1, hc2.trans hc1, hdl2.trans hdl1, ?_, ?_, ?_⟩
    · simp only [broadcastLoop, hstep]
      exact hrun
    · intro c hc
      rw [List.mem_cons, not_or] at hc
      rw [hout c hc.2, hsx c hc.1]
    · intro c hc
      rw [List.mem_cons] at hc
      rcases hc with hc | hc
      · subst hc
        rw [hout c hnd.1, hs0]
      · rw [hin c hc, hsx c (hne c hc)]
        by_cases hr : hasRoom h c
        · rw [if_pos hr, if_pos ((hroom c (hne c hc)).mpr hr)]
        · rw [if_neg hr, if_neg (fun hr1 => hr ((hroom c (hne c hc)).mp hr1))]
    · intro c
      rw [hcl2 c, hcl1 c, List.mem_cons]
      by_cases hc : c = c0
      · subst hc
        simp [hnd.1]
      · simp [hc, hroom c hc]

/-- The watcher loop never touches a queue whose buffer is full. -/
theorem watcherLoop_full (message : Bytes) (cl : List Client) (h : Hub) (c : Client)
    (hopen : ∀ x ∈ cl, (h.send x).closed = false) (hfull : ¬ hasRoom h c) :
    ∃ h2, watcherLoop message cl h = .ok h2 ∧ SameRegistry h h2 ∧ h2.send c = h.send c := by
  obtain ⟨h2, hrun, hreg, _, _, hf, _⟩ := watcherLoop_spec message cl h hopen
  exact ⟨h2, hrun, hreg, hf c hfull⟩

set_option maxRecDepth 100000 in
/-- C5 as stated fails for `sendToDeliveryWatchers`: after 256 undrained sends
the customer's queue holds 256 messages; the next send returns normally and the
session is still in the session set and in the delivery index, its queue open. -/
theorem sendToDeliveryWatchers_keeps_full_session :
    ∃ h h2, sendMany 256 sampleHub "D1" "m" = .ok h ∧
      (h.send sampleCustomer).buf.length = 256 ∧ (h.send sampleCustomer).cap = 256 ∧
      sendToDeliveryWatchers h "D1" "late" = .ok h2 ∧
      sampleCustomer ∈ h2.clients ∧
      mapGet h2.deliveries "D1" = some [sampleCustomer] ∧
      mapGet h2.customers "cust1" = some [sampleCustomer] ∧
      (h2.send sampleCustomer).closed = false ∧
      (h2.send sampleCustomer).buf = (h.send sampleCustomer).buf := by
  refine ⟨_, _, rfl, ?_, ?_, rfl, ?_, ?_, ?_, ?_, ?_⟩
  · rfl
  · rfl
  · decide
  · rfl
  · rfl
  · rfl
  · rfl

/-- C5 (amended): when a targeted session's queue is full (256 pending
messages, capacity 256) the message is dropped for that session. In
`broadcastToAll` (session set without repetition, queues open) the session's
queue is closed with its contents unchanged and the session is deleted from the
global session set. In `sendToDeliveryWatchers` (watchers' queues open) the
failure is only logged: the queue of the session is left exactly as it was, still
open, and the session set and the three indices are unchanged. -/
theorem full_queue_drop_policy (h : Hub) (c : Client) (message : Bytes)
    (hfull : (h.send c).cap = 256 ∧ (h.send c).buf.length = 256) :
    (c ∈ h.clients → h.clients.Nodup → (∀ x ∈ h.clients, (h.send x).closed = false) →
      ∃ h2, broadcastToAll h message = .ok h2 ∧
        (h2.send c).buf = (h.send c).buf ∧ (h2.send c).closed = true ∧ c ∉ h2.clients) ∧
    (∀ D cl, mapGet h.deliveries D = some cl → c ∈ cl →
      (∀ x ∈ cl, (h.send x).closed = false) →
      ∃ h2, sendToDeliveryWatchers h D message = .ok h2 ∧ h2.send c = h.send c ∧
        (h2.send c).closed = false ∧ SameRegistry h h2) := by
  have hroom : ¬ hasRoom h c := by
    unfold hasRoom
    rw [hfull.1, hfull.2]
    exact lt_irrefl 256
  constructor
  · intro hc hnd hopen
    obtain ⟨h2, hrun, _, _, _, _, hin, hcl⟩ := broadcastLoop_spec message h.clients h hnd hopen
    refine ⟨h2, hrun, ?_, ?_, ?_⟩
    · rw [hin c hc, if_neg hroom]
    · rw [hin c hc, if_neg hroom]
    · intro hmem
      rcases ((hcl c).mp hmem).2 with h1 | h1
      · exact h1 hc
      · exact hroom h1
  · intro D cl hD hc hopen
    obtain ⟨h2, hrun, hreg, hsame⟩ := watcherLoop_full message cl h c hopen hroom
    refine ⟨h2, ?_, hsame, ?_, hreg⟩
    · unfold sendToDeliveryWatchers
      rw [hD]
      exact hrun
    · rw [hsame]
      exact hopen c hc

set_option maxRecDepth 100000 in
theorem fullHub_is_full :
    (fullHub.send sampleCustomer).cap = 256 ∧ (fullHub.send sampleCustomer).buf.length = 256 :=
  ⟨rfl, rfl⟩

/-- Both send primitives at the sample hub with a full customer queue. -/
theorem full_queue_drop_policy_witness :
    ((fullHub.send sampleCustomer).cap = 256 ∧
        (fullHub.send sampleCustomer).buf.length = 256) ∧
      (∃ h2, broadcastToAll fullHub "x" = .ok h2 ∧
        (h2.send sampleCustomer).buf = (fullHub.send sampleCustomer).buf ∧
        (h2.send sampleCustomer).closed = true ∧ sampleCustomer ∉ h2.clients) ∧
      (∃ h2, sendToDeliveryWatchers fullHub "D1" "x" = .ok h2 ∧
        h2.send sampleCustomer = fullHub.send sampleCustomer ∧
        (h2.send sampleCustomer).closed = false ∧ SameRegistry fullHub h2) :=
  ⟨fullHub_is_full,
    (full_queue_drop_policy fullHub sampleCustomer "x" fullHub_is_full).1
      (by decide) (by decide) (by decide),
    (full_queue_drop_policy fullHub sampleCustomer "x" fullHub_is_full).2 "D1" [sampleCustomer]
      (by rfl) (by simp) (by decide)⟩

/-! ## The registry invariant -/

theorem broadcastMany_reachable (n : Nat) :
    ∀ (h h2 : Hub) (message : Bytes), Reachable h → broadcastMany n h message = .ok h2 →
      Reachable h2 := by
  induction n with
  | zero =>
    intro h h2 message hr hrun
    simp only [broadcastMany, Except.ok.injEq] at hrun
    rw [← hrun]
    exact hr
  | succ n ih =>
    intro h h2 message hr hrun
    simp only [broadcastMany] at hrun
    rcases hb : broadcastToAll h message with e | h1
    · rw [hb] at hrun
      simp at hrun
    · rw [hb] at hrun
      exact ih h1 h2 message (Reachable.broadcast h h1 message hr hb) hrun

theorem customerHub_reachable : Reachable customerHub := by
  unfold customerHub
  apply Reachable.register
  · exact Reachable.empty
  · simp [refers, newHub, mapGet]

set_option maxRecDepth 100000 in
/-- C6 fails on the code: a customer session watching `D1` registers and 257
broadcasts follow while nothing is taken off its queue. The 257th finds the
queue full, closes it and deletes the session from the session set only: the
state is reachable, the session is still listed in the delivery index and in
the customer index, and it is not in the global session set. -/
theorem registry_invariant_broken_by_broadcast :
    ∃ h, broadcastMany 257 customerHub "m" = .ok h ∧ Reachable h ∧
      mapGet h.deliveries "D1" = some [sampleCustomer] ∧
      mapGet h.customers "cust1" = some [sampleCustomer] ∧
      sampleCustomer ∉ h.clients ∧ (h.send sampleCustomer).closed = true := by
  refine ⟨_, rfl, ?_, ?_, ?_, ?_, ?_⟩
  · exact broadcastMany_reachable 257 customerHub _ "m" customerHub_reachable rfl
  · rfl
  · rfl
  · decide
  · rfl

/-! ## Unregistration -/

/-- C7: unregistering a session that is not in the global session set returns
normally with the hub state unchanged (session set, indices and every queue,
so no queue is closed again); in particular, after a successful unregistration
of a session, unregistering it again returns normally and changes nothing. -/
theorem unregisterClient_idempotent :
    (∀ (h : Hub) (c : Client), c ∉ h.clients → unregisterClient h c = .ok h) ∧
    (∀ (h h1 : Hub) (c : Client), unregisterClient h c = .ok h1 →
      c ∉ h1.clients ∧ unregisterClient h1 c = .ok h1) := by
  refine ⟨unregisterClient_absent, fun h h1 c hok => ?_⟩
  have hnot : c ∉ h1.clients := by
    by_cases hc : c ∈ h.clients
    · obtain ⟨_, hcl, _⟩ := unregisterClient_present h h1 c hc hok
      rw [hcl, mem_setDelete]
      exact fun hx => hx.2 rfl
    · rw [unregisterClient_absent h c hc] at hok
      simp only [Except.ok.injEq] at hok
      rw [← hok]
      exact hc
  exact ⟨hnot, unregisterClient_absent h1 c hnot⟩

/-- The sample customer unregistered twice. -/
theorem unregisterClient_idempotent_witness :
    ∃ h1, unregisterClient sampleHub sampleCustomer = .ok h1 ∧
      sampleCustomer ∉ h1.clients ∧ unregisterClient h1 sampleCustomer = .ok h1 :=
  ⟨_, rfl, unregisterClient_idempotent.2 sampleHub _ sampleCustomer rfl⟩

/-! ## Inbound frames -/

/-- C8 fails on the code: for every frame that decodes to an envelope of type
`location_update` whose data decodes to a `DriverLocation`, `handleDriverMessage`
panics with "unimplemented" in `App.processLocation`, before the tracker's
`processLocationUpdate` is reached. -/
theorem handleDriverMessage_location_update_panics (lib : GoLib) (now : Time) (dbOk : Bool)
    (dt : DeliveryTracker) (message : Bytes) (wsMsg : WebSocketMessage)
    (driverLoc : DriverLocation)
    (henv : lib.UnmarshalMessage message = some wsMsg)
    (htype : wsMsg.MsgType = TypeLocationUpdate)
    (hdata : lib.UnmarshalLocation wsMsg.Data = some driverLoc) :
    handleDriverMessage lib now dbOk dt message = .error "unimplemented" := by
  unfold handleDriverMessage
  rw [henv]
  simp only [htype, if_true]
  rw [hdata]
  rfl

/-- A well-formed location update frame under the sample codec. -/
theorem handleDriverMessage_location_update_panics_witness :
    sampleLib.UnmarshalMessage "drv1" =
        some { MsgType := "location_update", Timestamp := 0, Data := "drv1" } ∧
      handleDriverMessage sampleLib 0 true sampleTracker "drv1" = .error "unimplemented" :=
  ⟨by decide,
    handleDriverMessage_location_update_panics sampleLib 0 true sampleTracker "drv1"
      { MsgType := "location_update", Timestamp := 0, Data := "drv1" }
      { DriverID := "drv1", DeliveryID := "", Location := ⟨0, 0, 0, 0, 0, 0, 0⟩ }
      (by decide) (by decide) (by decide)⟩

/-! ## ETA -/

theorem wrapInt64_of_range (n : Int) (h1 : 0 ≤ n) (h2 : n < 2 ^ 63) : wrapInt64 n = n := by
  unfold wrapInt64
  rw [Int.emod_eq_of_lt (by omega) (by omega)]
  omega

theorem effectiveSpeed_eq (v : ℚ) : (if v < 5 then defaultSpeed else v) = effectiveSpeed v := by
  unfold effectiveSpeed defaultSpeed
  by_cases h : v < 5
  · rw [if_pos h, if_neg (not_le.mpr h)]
  · rw [if_neg h, if_pos (not_lt.mp h)]

theorem effectiveSpeed_ge (v : ℚ) : 5 ≤ effectiveSpeed v := by
  unfold effectiveSpeed
  split_ifs with h
  · exact h
  · norm_num

theorem etaFromDistance_minutes (now : Time) (deliveryID : String) (dist v : ℚ)
    (h0 : 0 ≤ dist) :
    (etaFromDistance now deliveryID dist v).DurationMinutes =
      ⌊roundFloat64 (roundFloat64 (dist / effectiveSpeed v) * 60)⌋ := by
  have hs := effectiveSpeed_ge v
  have hy : 0 ≤ roundFloat64 (dist / effectiveSpeed v) :=
    roundFloat64_nonneg _ (div_nonneg h0 (by linarith))
  have hx : 0 ≤ roundFloat64 (roundFloat64 (dist / effectiveSpeed v) * 60) :=
    roundFloat64_nonneg _ (mul_nonneg hy (by norm_num))
  unfold etaFromDistance
  simp only [effectiveSpeed_eq]
  unfold floatToInt
  rw [if_pos hx]

/-- A value of at most `b` is stored as a value of at most `2 * b + 1`. -/
theorem roundFloat64_le_of_le_bound (q b : ℚ) (hb : 0 ≤ b) (h : q ≤ b) :
    roundFloat64 q ≤ 2 * b + 1 := by
  rcases le_or_lt q 0 with hq | hq
  · have := roundFloat64_nonpos q hq
    linarith
  · have := roundFloat64_le q hq.le
    linarith

theorem distance_of_angle_le (t : ℚ) (ht : t ≤ 4) :
    roundFloat64 (6371 * roundFloat64 (2 * t)) ≤ 1000000 := by
  have h1 : roundFloat64 (2 * t) ≤ 17 := by
    have := roundFloat64_le_of_le_bound (2 * t) 8 (by norm_num) (by linarith)
    linarith
  have h2 := roundFloat64_le_of_le_bound (6371 * roundFloat64 (2 * t)) 108307 (by norm_num)
    (by linarith)
  linarith

/-- With a math library whose `Atan2` never exceeds 4 (the arc tangent is at
most π), the distance computed by `calculateDistance` is below 1000000 km. -/
theorem calculateDistance_le (lib : GoLib) (hat : ∀ y x, lib.Atan2 y x ≤ 4)
    (lat1 lon1 lat2 lon2 : ℚ) : calculateDistance lib lat1 lon1 lat2 lon2 ≤ 1000000 := by
  unfold calculateDistance
  exact distance_of_angle_le _ (hat _ _)

/-- C9: for every reported speed `v` and every distance `dist` with
`0 ≤ dist ≤ 1000000` km (`calculateDistance` stays below that, see
`calculateDistance_le`), `calculateETA`
is `etaFromDistance` at the distance to the dropoff, and there: the effective
speed is `v` when `v ≥ 5` and 40 when `v < 5`; `DurationMinutes` is the whole
number `n ≥ 0` with `n ≤ x < n + 1`, where `x` is `(dist / speed) * 60` as the
program computes it in `float64` (the quotient is rounded, then the product);
`EstimatedArrival` is `now` plus `DurationMinutes` minutes, the 64-bit duration
product not overflowing; and `DistanceKm` is `dist`. -/
theorem calculateETA_arithmetic (now : Time) (deliveryID : String) (dist v : ℚ)
    (h0 : 0 ≤ dist) (h1 : dist ≤ 1000000) :
    (∀ (lib : GoLib) (driverLoc : DriverLocation) (delivery : Delivery),
      calculateETA lib now driverLoc delivery =
        etaFromDistance now delivery.ID
          (calculateDistance lib driverLoc.Location.Lat driverLoc.Location.Lon
            delivery.DropoffLat delivery.DropoffLon)
          driverLoc.Location.Speed) ∧
      (etaFromDistance now deliveryID dist v).DistanceKm = dist ∧
      0 ≤ (etaFromDistance now deliveryID dist v).DurationMinutes ∧
      ((etaFromDistance now deliveryID dist v).DurationMinutes : ℚ) ≤
        roundFloat64 (roundFloat64 (dist / effectiveSpeed v) * 60) ∧
      roundFloat64 (roundFloat64 (dist / effectiveSpeed v) * 60) <
        ((etaFromDistance now deliveryID dist v).DurationMinutes : ℚ) + 1 ∧
      (etaFromDistance now deliveryID dist v).EstimatedArrival =
        now + (etaFromDistance now deliveryID dist v).DurationMinutes * timeMinute ∧
      (etaFromDistance now deliveryID dist v).DeliveryID = deliveryID := by
  have hs := effectiveSpeed_ge v
  have hq0 : 0 ≤ dist / effectiveSpeed v := div_nonneg h0 (by linarith)
  have hq1 : dist / effectiveSpeed v ≤ 200000 := by
    rw [div_le_iff₀ (by linarith)]
    nlinarith
  have hy0 : 0 ≤ roundFloat64 (dist / effectiveSpeed v) := roundFloat64_nonneg _ hq0
  have hy1 : roundFloat64 (dist / effectiveSpeed v) ≤ 400001 := by
    have := roundFloat64_le _ hq0
    linarith
  have hz0 : 0 ≤ roundFloat64 (dist / effectiveSpeed v) * 60 := mul_nonneg hy0 (by norm_num)
  have hx0 : 0 ≤ roundFloat64 (roundFloat64 (dist / effectiveSpeed v) * 60) :=
    roundFloat64_nonneg _ hz0
  have hx1 : roundFloat64 (roundFloat64 (dist / effectiveSpeed v) * 60) ≤ 48000121 := by
    have := roundFloat64_le _ hz0
    linarith
  have hmin := etaFromDistance_minutes now deliveryID dist v h0
  have hfl0 : 0 ≤ ⌊roundFloat64 (roundFloat64 (dist / effectiveSpeed v) * 60)⌋ :=
    Int.floor_nonneg.mpr hx0
  have hfl1 : ⌊roundFloat64 (roundFloat64 (dist / effectiveSpeed v) * 60)⌋ ≤ 48000121 := by
    have h := Int.floor_le (roundFloat64 (roundFloat64 (dist / effectiveSpeed v) * 60))
    have h2 : ((⌊roundFloat64 (roundFloat64 (dist / effectiveSpeed v) * 60)⌋ : Int) : ℚ) ≤
        ((48000121 : Int) : ℚ) := by
      push_cast
      linarith
    exact_mod_cast h2
  have harr : (etaFromDistance now deliveryID dist v).EstimatedArrival =
      now + wrapInt64 ((etaFromDistance now deliveryID dist v).DurationMinutes * timeMinute) :=
    rfl
  refine ⟨fun _ _ _ => rfl, rfl, ?_, ?_, ?_, ?_, rfl⟩
  · rw [hmin]
    exact hfl0
  · rw [hmin]
    exact Int.floor_le _
  · rw [hmin]
    exact Int.lt_floor_add_one _
  · rw [harr, hmin, wrapInt64_of_range]
    · exact mul_nonneg hfl0 (by norm_num [timeMinute])
    · unfold timeMinute
      omega

/-- The quotient of the `float64` values 11.063895201133487 and
66.38337120680093 is stored as 0.16666666666666666. -/
theorem roundFloat64_sample_hours :
    roundFloat64 (3114209644068187 / 281474976710656 / (4671314466102281 / 70368744177664)) =
      6004799503160661 / 36028797018963968 := by
  rw [roundFloat64_eval _ (-3) 6004799503160661 (by norm_num) (by norm_num) (by norm_num)
    (by norm_num) (by norm_num) (by norm_num)]
  norm_num

/-- The product of 0.16666666666666666 and 60 is stored as exactly 10. -/
theorem roundFloat64_sample_minutes :
    roundFloat64 (6004799503160661 / 36028797018963968 * 60) = 10 := by
  rw [roundFloat64_eval _ 3 5629499534213120 (by norm_num) (by norm_num) (by norm_num)
    (by norm_num) (by norm_num) (by norm_num)]
  norm_num

/-- The ETA at distance 11.063895201133487 km and reported speed
66.38337120680093 km/h: the exact value of `dist / v * 60` is below 10, the
`float64` value is exactly 10, and `DurationMinutes` is 10. -/
theorem calculateETA_arithmetic_witness :
    (3114209644068187 / 281474976710656 : ℚ) / (4671314466102281 / 70368744177664) * 60 < 10 ∧
      (etaFromDistance 0 "D1" (3114209644068187 / 281474976710656)
        (4671314466102281 / 70368744177664)).DurationMinutes = 10 ∧
      (etaFromDistance 0 "D1" (3114209644068187 / 281474976710656)
        (4671314466102281 / 70368744177664)).EstimatedArrival = 0 + 10 * timeMinute := by
  have h := calculateETA_arithmetic 0 "D1" (3114209644068187 / 281474976710656)
    (4671314466102281 / 70368744177664) (by norm_num) (by norm_num)
  obtain ⟨_, _, _, hle, hlt, harr, _⟩ := h
  have hv : effectiveSpeed (4671314466102281 / 70368744177664) =
      4671314466102281 / 70368744177664 := by
    unfold effectiveSpeed
    rw [if_pos (by norm_num)]
  rw [hv, roundFloat64_sample_hours, roundFloat64_sample_minutes] at hle hlt
  have hn : (etaFromDistance 0 "D1" (3114209644068187 / 281474976710656)
      (4671314466102281 / 70368744177664)).DurationMinutes = 10 := by
    have h1 : (etaFromDistance 0 "D1" (3114209644068187 / 281474976710656)
        (4671314466102281 / 70368744177664)).DurationMinutes ≤ 10 := by exact_mod_cast hle
    have h2 : (10 : Int) < (etaFromDistance 0 "D1" (3114209644068187 / 281474976710656)
        (4671314466102281 / 70368744177664)).DurationMinutes + 1 := by exact_mod_cast hlt
    omega
  refine ⟨by norm_num, hn, ?_⟩
  rw [harr, hn]

/-! ## Sends on closed queues -/

/-- A send to the watchers of a delivery keeps every registered queue open and
every watcher list made of registered customer sessions: on its own it never
leaves a closed queue in the delivery index. -/
theorem WatchersLive.send_live (h h2 : Hub) (D : String) (m : Bytes) (hinv : WatchersLive h)
    (hok : sendToDeliveryWatchers h D m = .ok h2) : WatchersLive h2 := by
  unfold sendToDeliveryWatchers at hok
  rcases hg : mapGet h.deliveries D with _ | cl
  · rw [hg] at hok
    simp only [Except.ok.injEq] at hok
    rw [← hok]
    exact hinv
  · rw [hg] at hok
    obtain ⟨_, hm⟩ := hinv.2 D cl hg
    obtain ⟨h3, hrun, hreg, _, hflags, _, _⟩ :=
      watcherLoop_spec m cl h (fun c hc => hinv.1 c (hm c hc).1)
    have hok2 : watcherLoop m cl h = .ok h2 := hok
    rw [hrun] at hok2
    simp only [Except.ok.injEq] at hok2
    subst hok2
    obtain ⟨hcl, _, _, hdel⟩ := hreg
    constructor
    · intro c hc
      rw [(hflags c).1]
      rw [hcl] at hc
      exact hinv.1 c hc
    · intro D2 cl2 hD2
      rw [hdel] at hD2
      rw [hcl]
      exact hinv.2 D2 cl2 hD2

set_option maxRecDepth 100000 in
/-- C11 fails on the code: a customer session watching `D1` registers and 257
broadcasts follow while nothing is taken off its queue. The state reached is
reachable by the four hub operations; the session is still listed in the
delivery index under `D1` although `broadcastToAll` has closed its queue, and
the next `sendToDeliveryWatchers` for `D1` attempts the send on that closed
queue and panics. -/
theorem send_on_closed_queue_after_broadcast :
    ∃ h, broadcastMany 257 customerHub "m" = .ok h ∧ Reachable h ∧
      mapGet h.deliveries "D1" = some [sampleCustomer] ∧
      (h.send sampleCustomer).closed = true ∧
      sendToDeliveryWatchers h "D1" "late" = .error "send on closed channel" := by
  refine ⟨_, rfl, ?_, ?_, ?_, ?_⟩
  · exact broadcastMany_reachable 257 customerHub _ "m" customerHub_reachable rfl
  · rfl
  · rfl
  · rfl

end LocationTracking
